import Mathlib

/-!
Verification of the countervalue cache engine (ledger-api-countervalue).

This file gives a shallow embedding, in Lean 4, of the parts of the source
that the frozen claims are about:

* `src/utils.js` — the currency registry helpers, `convertToCentSatRate`,
  the pair-exchange id codec, the bucket-key formatters and parsers, and the
  `promiseThrottle` primitive;
* `src/cache.js` — `fetchHisto`, `syncPairStats`, the throttled histo
  refresh body, `getHistoRequest`'s per-pair result construction and
  candidate selection, the live-rate batch coalescing of `pullLiveRates`,
  and `prefetchAllPairExchanges`;
* `src/db/mongodb.js` — `queryPairExchangesSortCursor` and the pair query.

Modelling conventions:

* JavaScript numbers are modelled as exact rationals (`ℚ`); where the code
  can produce `Infinity`, `-Infinity` or `NaN` (the min/max/ratio scan of
  `syncPairStats`), an explicit `JSNum` type with JS division/comparison
  semantics is used instead.
* JavaScript objects used as string-keyed maps are modelled as association
  lists (`List (String × α)`) in insertion order; assignment is `objSet`,
  which updates an existing key in place and otherwise appends, exactly the
  key-order semantics of JS objects with string keys.
* The JS runtime is modelled in the UTC timezone (the deployment default):
  `Date` civil accessors (`getFullYear` …) and the `Date` parser agree with
  UTC, so `msToDate` uses the standard civil-from-days algorithm.
* `Array.prototype.sort(cmp)` and the mongo sort are modelled as a stable
  sort (`List.insertionSort`) by the comparator's order, which is exactly
  what ES2019+ guarantees.
* Fallible code (a JS `throw`) is modelled with `Except`/`Option`.
-/

/-- Lower-casing of exchange ids, modelling `String.prototype.toLowerCase`
for the ASCII exchange ids the engine compares (char-wise `toLower`). -/
def jsToLower (s : String) : String :=
  String.mk (s.data.map Char.toLower)

/-- A currency of the registry: its ticker and the decimal magnitude of its
smallest unit (`cur.units[0].magnitude` in the source; `lenseMagnitude`). -/
structure Currency where
  ticker : String
  magnitude : Int
deriving DecidableEq, Repr

/-- The currency registry (`all` in `src/utils.js`): the concatenated list
of crypto currencies, fiats and tokens from the external registry, which the
engine treats as an opaque immutable list. -/
abbrev Registry : Type := List Currency

/-- The tickers of the registry (`allTickers` in `src/utils.js`). -/
def allTickers (reg : Registry) : List String :=
  (reg : List Currency).map Currency.ticker

/-- Embedding of `supportTicker = (ticker) => allTickers.includes(ticker)`. -/
def supportTicker (reg : Registry) (ticker : String) : Bool :=
  (allTickers reg).contains ticker

/-- Embedding of `getFiatOrCurrency`: `all.find(o => ticker === o.ticker)`;
the source throws when the ticker is unknown, which is modelled by `none`. -/
def getFiatOrCurrency (reg : Registry) (ticker : String) : Option Currency :=
  (reg : List Currency).find? (fun o => ticker = o.ticker)

/-- Embedding of `lenseMagnitude = (cur) => cur.units[0].magnitude`. -/
def lenseMagnitude (cur : Currency) : Int :=
  cur.magnitude

/-- Embedding of
`convertToCentSatRate = (from, to, value) => value * 10 ** (lenseMagnitude(to) - lenseMagnitude(from))`. -/
def convertToCentSatRate (fromCur toCur : Currency) (value : ℚ) : ℚ :=
  value * (10 : ℚ) ^ (lenseMagnitude toCur - lenseMagnitude fromCur)

/-- The two series granularities of the engine. -/
inductive Granularity where
  | daily
  | hourly
deriving DecidableEq, Repr

/-- Embedding of `granularityMs = { daily: 24*60*60*1000, hourly: 60*60*1000 }`. -/
def granularityMs : Granularity → Int
  | .daily => 24 * 60 * 60 * 1000
  | .hourly => 60 * 60 * 1000

/-- Splitting a character list at a separator, modelling
`String.prototype.split` with a one-character separator. -/
def splitChar (sep : Char) : List Char → List (List Char)
  | [] => [[]]
  | c :: rest =>
    match splitChar sep rest with
    | [] => if c = sep then [[], []] else [[c]]
    | h :: t => if c = sep then [] :: h :: t else (c :: h) :: t

/-- A parsed pair-exchange id. The source object fields are `id`, `exchange`,
`from`, `to`; `from`/`to` are Lean keywords so the fields are named
`fromTicker`/`toTicker` here. `parts[i]` past the end is JS `undefined`,
modelled by `none`. -/
structure PairExchange where
  id : String
  exchange : Option String
  fromTicker : Option String
  toTicker : Option String
deriving DecidableEq, Repr

/-- Embedding of `pairExchangeFromId = (id) => { parts = id.split("_");
return { id, exchange: parts[0], from: parts[1], to: parts[2] } }`. -/
def pairExchangeFromId (id : String) : PairExchange :=
  let parts := (splitChar '_' id.data).map String.mk
  { id := id
    exchange := parts.get? 0
    fromTicker := parts.get? 1
    toTicker := parts.get? 2 }

/-- Lookup in a JS-object association list: the value at the first (unique)
occurrence of the key. -/
def alookup {α : Type} : List (String × α) → String → Option α
  | [], _ => none
  | (k, v) :: t, key => if key = k then some v else alookup t key

/-- Assignment `obj[key] = v` on a JS-object association list: updates the
key in place when present, otherwise appends, preserving JS key order. -/
def objSet {α : Type} : List (String × α) → String → α → List (String × α)
  | [], key, v => [(key, v)]
  | (k, w) :: t, key, v =>
    if k = key then (key, v) :: t else (k, w) :: objSet t key v

/-- The reserved histo key for the currently open bucket. -/
def latestKey : String := "latest"

/-- Little-endian decimal digits of a natural number, with explicit fuel so
that the definition is structural (and hence evaluates in the kernel); any
fuel above the number itself is enough. -/
def natToRevDigitsAux : Nat → Nat → List Char
  | 0, _ => []
  | fuel + 1, n =>
    if n < 10 then [Nat.digitChar n]
    else Nat.digitChar (n % 10) :: natToRevDigitsAux fuel (n / 10)

/-- Decimal rendering of a natural number as characters, modelling the JS
template interpolation of a non-negative integer. -/
def natReprChars (n : Nat) : List Char :=
  (natToRevDigitsAux (n + 1) n).reverse

/-- Embedding of `twoDigits = (n) => (n > 9 ? n-as-string : "0" + n)`. -/
def twoDigitsChars (n : Nat) : List Char :=
  if n > 9 then natReprChars n else '0' :: natReprChars n

/-- The civil fields of a JS `Date` that the engine reads, in the modelled
UTC runtime: `getFullYear`, `getMonth` (0-based), `getDate` (1-based),
`getHours`. -/
structure JSDate where
  year : Nat
  month0 : Nat
  day : Nat
  hours : Nat
deriving DecidableEq, Repr

/-- Character-level body of `formatDay`. -/
def formatDayChars (d : JSDate) : List Char :=
  natReprChars d.year ++ '-' :: (twoDigitsChars (d.month0 + 1) ++ '-' :: twoDigitsChars d.day)

/-- Embedding of
`formatDay = (d) => year + "-" + twoDigits(month+1) + "-" + twoDigits(date)`. -/
def formatDay (d : JSDate) : String :=
  String.mk (formatDayChars d)

/-- Character-level body of `formatHour`. -/
def formatHourChars (d : JSDate) : List Char :=
  formatDayChars d ++ 'T' :: twoDigitsChars d.hours

/-- Embedding of `formatHour`: the day key plus `"T" + twoDigits(hours)`. -/
def formatHour (d : JSDate) : String :=
  String.mk (formatHourChars d)

/-- Embedding of `formatTime = (d, granularity) => formats[granularity](d)`. -/
def formatTime (d : JSDate) : Granularity → String
  | .daily => formatDay d
  | .hourly => formatHour d

/-- Big-endian accumulation of decimal digit characters into a natural. -/
def digitsToNatAux (acc : Nat) : List Char → Nat
  | [] => acc
  | c :: t => digitsToNatAux (10 * acc + (c.toNat - 48)) t

/-- Reading a leading run of decimal digits, returning the value and the
rest of the input; fails when no digit is present. -/
def parseNatChars (l : List Char) : Option (Nat × List Char) :=
  let ds := l.takeWhile Char.isDigit
  if ds.isEmpty then none
  else some (digitsToNatAux 0 ds, l.dropWhile Char.isDigit)

/-- Consuming one expected separator character from the input. -/
def parseCharThen (c : Char) : List Char → Option (List Char)
  | x :: rest => if x = c then some rest else none
  | [] => none

/-- Reading a decimal field followed by an expected separator. -/
def parseNatSep (sep : Char) (l : List Char) : Option (Nat × List Char) :=
  match parseNatChars l with
  | some (n, rest) =>
    match parseCharThen sep rest with
    | some rest2 => some (n, rest2)
    | none => none
  | none => none

/-- Parsing of the date-only form `YYYY-MM-DD` accepted by `new Date`,
returning `(year, month, day)` (month 1-based, as in the string). -/
def parseDayChars (l : List Char) : Option (Nat × Nat × Nat) :=
  match parseNatSep '-' l with
  | some (y, r1) =>
    match parseNatSep '-' r1 with
    | some (m, r2) =>
      match parseNatChars r2 with
      | some (d, []) => some (y, m, d)
      | _ => none
    | none => none
  | none => none

/-- Parsing of the date-time form `YYYY-MM-DDTHH:MM` accepted by `new Date`,
returning `(year, month, day, hours)` (minutes are parsed and validated but
not kept: the engine never reads them). -/
def parseDateTimeChars (l : List Char) : Option (Nat × Nat × Nat × Nat) :=
  match parseNatSep '-' l with
  | some (y, r1) =>
    match parseNatSep '-' r1 with
    | some (m, r2) =>
      match parseNatSep 'T' r2 with
      | some (d, r3) =>
        match parseNatSep ':' r3 with
        | some (h, r4) =>
          match parseNatChars r4 with
          | some (_, []) => some (y, m, d, h)
          | _ => none
        | none => none
      | none => none
    | none => none
  | none => none

/-- Embedding of `parsers = { daily: (str) => new Date(str),
hourly: (str) => new Date(str + ":00") }` and
`parseTime = (str, granularity) => parsers[granularity](str)`, in the UTC
runtime; an unparseable string (JS Invalid Date) is modelled by the zero
date, which no claim relies on. -/
def parseTime (str : String) : Granularity → JSDate
  | .daily =>
    match parseDayChars str.data with
    | some (y, m, d) => ⟨y, m - 1, d, 0⟩
    | none => ⟨0, 0, 0, 0⟩
  | .hourly =>
    match parseDateTimeChars (str.data ++ [':', '0', '0']) with
    | some (y, m, d, h) => ⟨y, m - 1, d, h⟩
    | none => ⟨0, 0, 0, 0⟩

/-- Civil date from a day count since the Unix epoch (standard
civil-from-days algorithm), giving `(year, month 1-based, day 1-based)`.
Valid for the post-1970 instants the engine manipulates. -/
def civilFromDays (z : Int) : Int × Nat × Nat :=
  let zs := z + 719468
  let era : Int := Int.fdiv zs 146097
  let doe : Nat := (zs - era * 146097).toNat
  let yoe : Nat := (doe - doe / 1460 + doe / 36524 - doe / 146096) / 365
  let y : Int := (yoe : Int) + era * 400
  let doy : Nat := doe - (365 * yoe + yoe / 4 - yoe / 100)
  let mp : Nat := (5 * doy + 2) / 153
  let d : Nat := doy - (153 * mp + 2) / 5 + 1
  let m : Nat := if mp < 10 then mp + 3 else mp - 9
  (if m ≤ 2 then y + 1 else y, m, d)

/-- Day count since the Unix epoch of a civil date (standard days-from-civil
algorithm), the inverse direction used by the modelled `Date` parser. -/
def daysFromCivil (y : Int) (m d : Nat) : Int :=
  let y2 : Int := if m ≤ 2 then y - 1 else y
  let era : Int := Int.fdiv y2 400
  let yoe : Nat := (y2 - era * 400).toNat
  let doy : Nat := (153 * (if m > 2 then m - 3 else m + 9) + 2) / 5 + d - 1
  let doe : Nat := yoe * 365 + yoe / 4 - yoe / 100 + doy
  era * 146097 + (doe : Int) - 719468

/-- The civil fields, in UTC, of the instant `ms` milliseconds after the
epoch: the model of `new Date(ms)` under the engine's civil accessors. -/
def msToDate (ms : Int) : JSDate :=
  let z := Int.fdiv ms 86400000
  let c := civilFromDays z
  ⟨c.1.toNat, c.2.1 - 1, c.2.2, (Int.emod ms 86400000).toNat / 3600000⟩

/-- Epoch milliseconds of a histo bucket key, modelling
`new Date(key).getTime()` in the UTC runtime: the engine only feeds it keys
in the two bucket formats; anything else is JS `NaN`, modelled by `none`. -/
def jsParseDateMs (s : String) : Option Int :=
  match parseDayChars s.data with
  | some (y, m, d) => some (daysFromCivil (y : Int) m d * 86400000)
  | none =>
    match parseDateTimeChars s.data with
    | some (y, m, d, h) => some (daysFromCivil (y : Int) m d * 86400000 + (h : Int) * 3600000)
    | none => none

/-- A JavaScript number as the stats scan of `syncPairStats` can produce
it: an exact rational, one of the two infinities, or `NaN`. -/
inductive JSNum where
  | num (q : ℚ)
  | inf
  | ninf
  | nan
deriving DecidableEq, Repr

/-- JS `isNaN`. -/
def jsIsNaN : JSNum → Bool
  | .nan => true
  | _ => false

/-- JS `isFinite`. -/
def jsIsFinite : JSNum → Bool
  | .num _ => true
  | _ => false

/-- JS `<=` (false whenever an operand is `NaN`). -/
def jsLe : JSNum → JSNum → Bool
  | .nan, _ => false
  | _, .nan => false
  | .ninf, _ => true
  | _, .ninf => false
  | _, .inf => true
  | .inf, _ => false
  | .num a, .num b => a ≤ b

/-- JS `<` (false whenever an operand is `NaN`). -/
def jsLt : JSNum → JSNum → Bool
  | .nan, _ => false
  | _, .nan => false
  | .num a, .num b => a < b
  | .ninf, .ninf => false
  | .ninf, _ => true
  | _, .ninf => false
  | .inf, _ => false
  | .num _, .inf => true

/-- JS `Math.min` of two numbers (`NaN` propagates). -/
def jsMin2 : JSNum → JSNum → JSNum
  | .nan, _ => .nan
  | _, .nan => .nan
  | .ninf, _ => .ninf
  | _, .ninf => .ninf
  | .inf, b => b
  | a, .inf => a
  | .num a, .num b => .num (min a b)

/-- JS `Math.max` of two numbers (`NaN` propagates). -/
def jsMax2 : JSNum → JSNum → JSNum
  | .nan, _ => .nan
  | _, .nan => .nan
  | .inf, _ => .inf
  | _, .inf => .inf
  | .ninf, b => b
  | a, .ninf => a
  | .num a, .num b => .num (max a b)

/-- JS `Math.min(...args)`: the fold of `jsMin2` with neutral `Infinity`. -/
def jsMinList (l : List JSNum) : JSNum :=
  l.foldl jsMin2 .inf

/-- JS division, including division by zero and by infinities (the sign of
a JS negative zero is not tracked: the engine never divides by one). -/
def jsDiv : JSNum → JSNum → JSNum
  | .nan, _ => .nan
  | _, .nan => .nan
  | .num a, .num b =>
    if b = 0 then (if a = 0 then .nan else if 0 < a then .inf else .ninf)
    else .num (a / b)
  | .num _, .inf => .num 0
  | .num _, .ninf => .num 0
  | .inf, .num b => if 0 ≤ b then .inf else .ninf
  | .ninf, .num b => if 0 ≤ b then .ninf else .inf
  | _, _ => .nan

/-- JS subtraction on the extended numbers. -/
def jsSub : JSNum → JSNum → JSNum
  | .nan, _ => .nan
  | _, .nan => .nan
  | .num a, .num b => .num (a - b)
  | .num _, .inf => .ninf
  | .num _, .ninf => .inf
  | .inf, .ninf => .inf
  | .inf, _ => .inf
  | .ninf, .inf => .ninf
  | .ninf, _ => .ninf

/-- JS `Math.floor` (`NaN` and infinities pass through); the floor of a
rational is its numerator flooring-divided by its denominator. -/
def jsFloor : JSNum → JSNum
  | .num a => .num ((Int.fdiv a.num (a.den : Int) : Int) : ℚ)
  | x => x

/-- Epoch milliseconds of a bucket key as a JS number:
`new Date(key).getTime()`, `NaN` on an unparseable key. -/
def jsDateGetTime (s : String) : JSNum :=
  match jsParseDateMs s with
  | some ms => .num (ms : ℚ)
  | none => .nan

/-- The persisted pair-exchange record (`DB_PairExchangeData` in
`src/types.js`), restricted to the fields the claims touch. The source
fields `from`/`to` are Lean keywords and appear as `fromTicker`/`toTicker`;
`latestDate` is kept as epoch milliseconds. -/
structure DB_PairExchangeData where
  id : String
  exchange : String
  fromTicker : String
  toTicker : String
  from_to : String
  latest : ℚ
  latestDate : Option Int
  yesterdayVolume : ℚ
  hasHistoryFor1Year : Bool
  hasHistoryFor30LastDays : Bool
  historyLoadedAt_daily : Option String
  historyLoadedAt_hourly : Option String
  histo_daily : List (String × ℚ)
  histo_hourly : List (String × ℚ)
deriving DecidableEq, Repr

/-- The record field `historyLoadedAt_<granularity>`. -/
def historyLoadedAt (r : DB_PairExchangeData) : Granularity → Option String
  | .daily => r.historyLoadedAt_daily
  | .hourly => r.historyLoadedAt_hourly

/-- The record field `histo_<granularity>`. -/
def histoOf (r : DB_PairExchangeData) : Granularity → List (String × ℚ)
  | .daily => r.histo_daily
  | .hourly => r.histo_hourly

/-- Embedding of `isAcceptedExchange = (exchangeId) =>
!blacklist.includes(exchangeId.toLowerCase())`; the parsed
`BLACKLIST_EXCHANGES` environment list is a parameter. -/
def isAcceptedExchange (blacklist : List String) (exchangeId : String) : Bool :=
  !(blacklist.contains (jsToLower exchangeId))

/-- Embedding of `filterPairExchanges = (all) =>
all.filter(o => isAcceptedExchange(o.exchange))`. -/
def filterPairExchanges (blacklist : List String)
    (all : List DB_PairExchangeData) : List DB_PairExchangeData :=
  all.filter (fun o => isAcceptedExchange blacklist o.exchange)

/-- The order of `queryPairExchangesSortCursor` in `src/db/mongodb.js`:
`cursor.sort({ yesterdayVolume: -1 })`, i.e. descending yesterday volume. -/
def volDescRel (a b : DB_PairExchangeData) : Prop :=
  b.yesterdayVolume ≤ a.yesterdayVolume

instance : DecidableRel volDescRel :=
  fun a b => inferInstanceAs (Decidable (b.yesterdayVolume ≤ a.yesterdayVolume))

instance : IsTotal DB_PairExchangeData volDescRel :=
  ⟨fun a b => le_total b.yesterdayVolume a.yesterdayVolume⟩

instance : IsTrans DB_PairExchangeData volDescRel :=
  ⟨fun _ _ _ h1 h2 => le_trans h2 h1⟩

/-- Embedding of `queryPairExchangesSortCursor`: a stable sort by
descending `yesterdayVolume` (and by nothing else). -/
def queryPairExchangesSortCursor (l : List DB_PairExchangeData) :
    List DB_PairExchangeData :=
  List.insertionSort volDescRel l

/-- Embedding of `queryPairExchangesByPairs`: the records whose `from_to`
is among the requested pairs, through the sort cursor. -/
def queryPairExchangesByPairs (store : List DB_PairExchangeData)
    (pairs : List (String × String)) : List DB_PairExchangeData :=
  queryPairExchangesSortCursor
    (store.filter (fun r => pairs.any (fun p => r.from_to = p.1 ++ "_" ++ p.2)))

/-- Embedding of `getPairExchangesForPairs`: the pair query followed by the
blacklist filter (the best-effort refresh that precedes it does not change
the returned view of the store). -/
def getPairExchangesForPairs (store : List DB_PairExchangeData)
    (blacklist : List String) (pairs : List (String × String)) :
    List DB_PairExchangeData :=
  filterPairExchanges blacklist (queryPairExchangesByPairs store pairs)

/-- The candidate selection of `getHistoRequest` for one request pair:
filter on the pair and `hasHistoryFor30LastDays`, then either the explicit
exchange or the first candidate. -/
def selectPairExchange (pairExchanges : List DB_PairExchangeData)
    (f t : String) (exchange : Option String) : Option DB_PairExchangeData :=
  let pairExchangeCandidates := pairExchanges.filter
    (fun s => decide (s.fromTicker = f) && decide (s.toTicker = t) && s.hasHistoryFor30LastDays)
  match exchange with
  | some e => pairExchangeCandidates.find? (fun s => s.exchange = e)
  | none => pairExchangeCandidates.head?

/-- The record `getHistoRequest` uses for a request pair with no explicit
exchange: selection over the blacklist-filtered, volume-sorted records of
that pair. -/
def getHistoSelectedPairExchange (store : List DB_PairExchangeData)
    (blacklist : List String) (f t : String) (exchange : Option String) :
    Option DB_PairExchangeData :=
  selectPairExchange (getPairExchangesForPairs store blacklist [(f, t)]) f t exchange

/-- The key filter of `getHistoRequest`:
`at ? at.includes(key) : !after || key > after`. -/
def getHistoKeyKept (afterFilter : Option String) (atFilter : Option (List String))
    (key : String) : Bool :=
  match atFilter with
  | some l => l.contains key
  | none =>
    match afterFilter with
    | none => true
    | some a => decide (a < key)

/-- The `pairResult` object of `getHistoRequest` after the key-filtering
loop, before `latest` is set. -/
def getHistoFilteredResult (histo : List (String × ℚ)) (afterFilter : Option String)
    (atFilter : Option (List String)) : List (String × ℚ) :=
  histo.foldl
    (fun acc kv => if getHistoKeyKept afterFilter atFilter kv.1 then objSet acc kv.1 kv.2 else acc)
    []

/-- The per-pair entry of a `getHistoRequest` response: the filtered histo
with `pairResult.latest = pairExchange.latest` assigned afterwards. -/
def getHistoRequestPairResult (histo : List (String × ℚ)) (afterFilter : Option String)
    (atFilter : Option (List String)) (recordLatest : ℚ) : List (String × ℚ) :=
  objSet (getHistoFilteredResult histo afterFilter atFilter) latestKey recordLatest

/-- A streamed price update `(pairExchangeId, price)`. -/
structure PriceUpdate where
  pairExchangeId : String
  price : ℚ
deriving DecidableEq, Repr

/-- One iteration of the coalescing loop of `pullLiveRates`: parse the id,
keep the update only when both tickers are supported, and assign the
converted rate at `ratesPerId[pe.id]`. -/
def pullLiveRatesStep (reg : Registry) (ratesPerId : List (String × ℚ))
    (msg : PriceUpdate) : List (String × ℚ) :=
  let pe := pairExchangeFromId msg.pairExchangeId
  match pe.fromTicker, pe.toTicker with
  | some f, some t =>
    if supportTicker reg f && supportTicker reg t then
      match getFiatOrCurrency reg f, getFiatOrCurrency reg t with
      | some cf, some ct => objSet ratesPerId pe.id (convertToCentSatRate cf ct msg.price)
      | _, _ => ratesPerId
    else ratesPerId
  | _, _ => ratesPerId

/-- The buffered-batch body of `pullLiveRates`: an empty one-second buffer
returns without a store call (`none`); otherwise the coalesced
`liveRates` list passed to the single `db.updateLiveRates` call is built
from `ratesPerId` in key order. -/
def pullLiveRatesBatch (reg : Registry) (buf : List PriceUpdate) :
    Option (List (String × ℚ)) :=
  if buf.isEmpty then none
  else some (buf.foldl (pullLiveRatesStep reg) [])

/-- Whether a price update survives the support filter of the live
pipeline. -/
def priceUpdateSupported (reg : Registry) (msg : PriceUpdate) : Bool :=
  match (pairExchangeFromId msg.pairExchangeId).fromTicker,
      (pairExchangeFromId msg.pairExchangeId).toTicker with
  | some f, some t => supportTicker reg f && supportTicker reg t
  | _, _ => false

/-- The centSat rate of a price update, when both tickers resolve. -/
def priceUpdateRate (reg : Registry) (msg : PriceUpdate) : Option ℚ :=
  match (pairExchangeFromId msg.pairExchangeId).fromTicker,
      (pairExchangeFromId msg.pairExchangeId).toTicker with
  | some f, some t =>
    match getFiatOrCurrency reg f, getFiatOrCurrency reg t with
    | some cf, some ct => some (convertToCentSatRate cf ct msg.price)
    | _, _ => none
  | _, _ => none

/-- The rate of the last supported update for a given id within a batch
(`none` when the batch holds no supported update for that id). -/
def lastSupportedRate (reg : Registry) (buf : List PriceUpdate) (k : String) :
    Option ℚ :=
  buf.foldl
    (fun acc msg =>
      if msg.pairExchangeId = k ∧ priceUpdateSupported reg msg = true then priceUpdateRate reg msg
      else acc)
    none

/-- A provider history point `(time, …, close, volume)`; only the fields
the engine reads are kept. -/
structure OHLCV where
  time : Int
  close : ℚ
  volume : ℚ
deriving DecidableEq, Repr

/-- The order of `history.sort((a, b) => b.time - a.time)`: descending
time. -/
def timeDescRel (a b : OHLCV) : Prop :=
  b.time ≤ a.time

instance : DecidableRel timeDescRel :=
  fun a b => inferInstanceAs (Decidable (b.time ≤ a.time))

instance : IsTotal OHLCV timeDescRel :=
  ⟨fun a b => le_total b.time a.time⟩

instance : IsTrans OHLCV timeDescRel :=
  ⟨fun _ _ _ h1 h2 => le_trans h2 h1⟩

/-- The histo map built by `fetchHisto(pairExchangeId, granularity)` from
the provider series: points are sorted by descending time, each close is
converted through the registry, and the bucket key is `"latest"` for a
point inside the currently open bucket. An unknown ticker makes the source
throw before any histo is produced (no store write happens on that path);
this is modelled by the empty map. The daily statistics side effects are
modelled separately by `syncPairStats`. -/
def fetchHisto (reg : Registry) (nowMs : Int) (granularity : Granularity)
    (pairExchangeId : String) (history : List OHLCV) : List (String × ℚ) :=
  let sorted := List.insertionSort timeDescRel history
  let pe := pairExchangeFromId pairExchangeId
  match pe.fromTicker.bind (getFiatOrCurrency reg),
      pe.toTicker.bind (getFiatOrCurrency reg) with
  | some fromCur, some toCur =>
    sorted.foldl
      (fun histo data =>
        let key :=
          if nowMs - granularityMs granularity < data.time then latestKey
          else formatTime (msToDate data.time) granularity
        objSet histo key (convertToCentSatRate fromCur toCur data.close))
      []
  | _, _ => []

/-- Embedding of `MINIMAL_DAYS_TO_CONSIDER_EXCHANGE = Math.min(env ? parseInt(env) : 20, 30)`;
the parsed environment value is a parameter. -/
def MINIMAL_DAYS_TO_CONSIDER_EXCHANGE (env : Option Nat) : Nat :=
  min (env.getD 20) 30

/-- Embedding of `MAXIMUM_RATIO_EXTREME_VARIATION = 1000`. -/
def MAXIMUM_RATIO_EXTREME_VARIATION : ℚ := 1000

/-- The bucket keys scanned by the 30-day loop of `syncPairStats`:
`for (let t = nowT - 30 * granMs; t < nowT - granMs; t += granMs)` with
`granMs` one day, i.e. the instants `nowT - k·day` for `k = 30 … 2`,
each formatted as a daily key. -/
def scanKeys (nowMs : Int) : List String :=
  (List.range 29).map
    (fun j => formatTime (msToDate (nowMs - (30 - (j : Int)) * granularityMs .daily)) .daily)

/-- The statistic fields derived and persisted by `syncPairStats` (the
passthrough `stats` argument merged into the same write carries no derived
data and is not modelled). -/
structure SyncStatsOut where
  oldestDayAgo : JSNum
  hasHistoryFor30LastDays : Bool
  hasHistoryFor1Year : Bool
deriving DecidableEq, Repr

/-- Embedding of `syncPairStats(pairExchangeId, histoDays)`:
`.error` models the `getFiatOrCurrency` throw on an unknown ticker,
`.ok none` models the early return when the non-`latest` day set is empty
(no `updatePairExchangeStats` call), and `.ok (some stats)` models the
single `updatePairExchangeStats` write with the derived fields. -/
def syncPairStats (reg : Registry) (env : Option Nat) (nowMs : Int)
    (pairExchangeId : String) (histoDays : List (String × ℚ)) :
    Except String (Option SyncStatsOut) :=
  let pe := pairExchangeFromId pairExchangeId
  match pe.fromTicker.bind (getFiatOrCurrency reg),
      pe.toTicker.bind (getFiatOrCurrency reg) with
  | some _, some _ =>
    let days := ((histoDays.map Prod.fst).filter (fun k => k ≠ latestKey)).map jsDateGetTime
    if days.isEmpty then Except.ok none
    else
      let oldestDayAgo :=
        jsFloor (jsDiv (jsSub (.num (nowMs : ℚ)) (jsMinList days)) (.num ((granularityMs .daily : Int) : ℚ)))
      let minimum : JSNum :=
        match alookup histoDays latestKey with
        | some q => if q ≠ 0 then .num q else .inf
        | none => .inf
      let maximum : JSNum :=
        match alookup histoDays latestKey with
        | some q => if q ≠ 0 then .num q else .num 0
        | none => .num 0
      let historyCount : Nat := if (alookup histoDays latestKey).isSome then 1 else 0
      let scan :=
        (scanKeys nowMs).foldl
          (fun (acc : Nat × JSNum × JSNum) key =>
            match alookup histoDays key with
            | some v =>
              if 0 < v then (acc.1 + 1, jsMin2 acc.2.1 (.num v), jsMax2 acc.2.2 (.num v))
              else acc
            | none => acc)
          (historyCount, minimum, maximum)
      let minMaxRatio := jsDiv scan.2.2 scan.2.1
      let invalidRatio :=
        jsLe minMaxRatio (.num 0) || !(jsIsFinite minMaxRatio) || jsIsNaN minMaxRatio
      let hasHistoryFor30LastDays :=
        decide (MINIMAL_DAYS_TO_CONSIDER_EXCHANGE env ≤ scan.1) && !invalidRatio &&
          jsLt minMaxRatio (.num MAXIMUM_RATIO_EXTREME_VARIATION)
      let hasHistoryFor1Year := jsLt (.num 365) oldestDayAgo
      Except.ok (some ⟨oldestDayAgo, hasHistoryFor30LastDays, hasHistoryFor1Year⟩)
  | _, _ => Except.error pairExchangeId

/-- The store write performed by a `syncPairStats` run: `none` when the run
threw or returned early without calling `updatePairExchangeStats`. -/
def syncPairStatsWrite (r : Except String (Option SyncStatsOut)) : Option SyncStatsOut :=
  match r with
  | .ok (some st) => some st
  | _ => none

/-- The positive stored rates among the scanned 30-day-window bucket keys,
in scan order: the rates that the loop of `syncPairStats` counts and feeds
to the running min/max. -/
def scanPositiveRates (histoDays : List (String × ℚ)) (nowMs : Int) : List ℚ :=
  (scanKeys nowMs).filterMap
    (fun k =>
      match alookup histoDays k with
      | some v => if 0 < v then some v else none
      | none => none)

/-- The history count as the claim states it: the number of scanned buckets
whose stored rate is positive, plus 1 when a `latest` key exists. -/
def claimHistoryCount (histoDays : List (String × ℚ)) (nowMs : Int) : Nat :=
  (scanPositiveRates histoDays nowMs).length +
    (if (alookup histoDays latestKey).isSome then 1 else 0)

/-- Validity of the max/min ratio as the claim states it — positive,
finite, not NaN — together with the strict `< 1000` bound. -/
def claimRatioOk (ratio : JSNum) : Bool :=
  (!(jsLe ratio (.num 0)) && jsIsFinite ratio && !(jsIsNaN ratio)) &&
    jsLt ratio (.num MAXIMUM_RATIO_EXTREME_VARIATION)

/-- The max/min ratio over the scanned rates with given min/max seeds. -/
def claimRatio (histoDays : List (String × ℚ)) (nowMs : Int) (seedMin seedMax : JSNum) : JSNum :=
  jsDiv
    ((scanPositiveRates histoDays nowMs).foldl (fun a v => jsMax2 a (.num v)) seedMax)
    ((scanPositiveRates histoDays nowMs).foldl (fun a v => jsMin2 a (.num v)) seedMin)

/-- `hasHistoryFor30LastDays` exactly as the claim words it: the count is
at least `MIN_DAYS` and the ratio is valid and below 1000, where an
existing `latest` value — zero or not — seeds the min/max. -/
def hasHistory30Claimed (histoDays : List (String × ℚ)) (nowMs : Int) (env : Option Nat) : Bool :=
  let seedMin : JSNum :=
    match alookup histoDays latestKey with
    | some q => .num q
    | none => .inf
  let seedMax : JSNum :=
    match alookup histoDays latestKey with
    | some q => .num q
    | none => .num 0
  decide (MINIMAL_DAYS_TO_CONSIDER_EXCHANGE env ≤ claimHistoryCount histoDays nowMs) &&
    claimRatioOk (claimRatio histoDays nowMs seedMin seedMax)

/-- `hasHistoryFor30LastDays` as the code computes it (the amended claim):
the same formula, except that a `latest` value seeds the min/max only when
it is nonzero (truthy), while a zero `latest` still adds 1 to the count. -/
def hasHistory30Amended (histoDays : List (String × ℚ)) (nowMs : Int) (env : Option Nat) : Bool :=
  let seedMin : JSNum :=
    match alookup histoDays latestKey with
    | some q => if q ≠ 0 then .num q else .inf
    | none => .inf
  let seedMax : JSNum :=
    match alookup histoDays latestKey with
    | some q => if q ≠ 0 then .num q else .num 0
    | none => .num 0
  decide (MINIMAL_DAYS_TO_CONSIDER_EXCHANGE env ≤ claimHistoryCount histoDays nowMs) &&
    claimRatioOk (claimRatio histoDays nowMs seedMin seedMax)

/-- The outcome of one JS async action: a resolved value or a rejection. -/
inductive JSResult (ε α : Type) where
  | ok (a : α)
  | err (e : ε)
deriving DecidableEq, Repr

/-- The observable effects of one run of the throttled histo refresh body
built by `fetchAndCacheHisto_makeThrottle`. -/
structure HistoRefreshOutcome where
  providerCalled : Bool
  loggedFailure : Bool
  storeWrite : Option (List (String × ℚ))
  result : Option (List (String × ℚ))
deriving DecidableEq, Repr

/-- Embedding of the body of `fetchAndCacheHisto_makeThrottle(id, granularity)`:
read the record; serve the cached histo when `historyLoadedAt_<g>` equals the
current bucket key; otherwise run `fetchHisto` (its outcome is the
`fetchOutcome` parameter) and either store and return the new histo, or — on
failure — log via `failRefreshingData` and return the record's cached histo.
The body never rethrows: the outcome is a plain value. -/
def fetchAndCacheHistoBody (pairExchange : Option DB_PairExchangeData)
    (granularity : Granularity) (nowKey : String)
    (fetchOutcome : JSResult String (List (String × ℚ))) : HistoRefreshOutcome :=
  match pairExchange with
  | none => ⟨false, false, none, none⟩
  | some pe =>
    if historyLoadedAt pe granularity = some nowKey then
      ⟨false, false, none, some (histoOf pe granularity)⟩
    else
      match fetchOutcome with
      | .ok history => ⟨true, false, some history, some history⟩
      | .err _ => ⟨true, true, none, some (histoOf pe granularity)⟩

/-- Embedding of `promiseThrottle(fn, ms)` (src/utils.js) over lodash
throttle, as a state machine processing timed calls. The state is the last
successful leading-edge invocation (its time and cached result); a call
re-invokes the action iff the state is empty or the window has elapsed; a
failed invocation runs `throttleFn.cancel()` before rethrowing, clearing the
state so that the error is never served from cache. Each processed call
yields the observed result and whether the underlying action was started. -/
def promiseThrottle {α ε : Type} (wait : Nat) :
    Option (Nat × α) → List (Nat × JSResult ε α) → List (JSResult ε α × Bool)
  | _, [] => []
  | none, (t, run) :: rest =>
    match run with
    | .ok a => (.ok a, true) :: promiseThrottle wait (some (t, a)) rest
    | .err e => (.err e, true) :: promiseThrottle wait none rest
  | some (t0, a), (t, run) :: rest =>
    if wait ≤ t - t0 then
      match run with
      | .ok a2 => (.ok a2, true) :: promiseThrottle wait (some (t, a2)) rest
      | .err e => (.err e, true) :: promiseThrottle wait none rest
    else (.ok a, false) :: promiseThrottle wait (some (t0, a)) rest

/-- One scheduled effect of `prefetchAllPairExchanges`: a throttled histo
refresh of one granularity, or the pacing sleep. -/
inductive PrefetchStep where
  | refresh (id : String) (granularity : Granularity)
  | sleep (ms : ℚ)
deriving DecidableEq, Repr

/-- The `fetchHisto` throttle window (`throttles.fetchHisto = 15 min`). -/
def throttles_fetchHisto : ℚ := 15 * 60 * 1000

/-- Embedding of `prioritizePairExchange = ({ latestDate }) =>
-(latestDate ? Number(latestDate) : 0)`. -/
def prioritizePairExchange (r : DB_PairExchangeData) : Int :=
  -(match r.latestDate with
    | some d => d
    | none => 0)

/-- The sort order of `sort((a, b) => prioritizePairExchange(b) - prioritizePairExchange(a))`:
`a` precedes `b` when the comparator is non-positive. -/
def prefetchSortRel (a b : DB_PairExchangeData) : Prop :=
  prioritizePairExchange b - prioritizePairExchange a ≤ 0

instance : DecidableRel prefetchSortRel :=
  fun a b =>
    inferInstanceAs (Decidable (prioritizePairExchange b - prioritizePairExchange a ≤ 0))

instance : IsTotal DB_PairExchangeData prefetchSortRel :=
  ⟨fun a b => by
    unfold prefetchSortRel
    omega⟩

instance : IsTrans DB_PairExchangeData prefetchSortRel :=
  ⟨fun a b c h1 h2 => by
    unfold prefetchSortRel at h1 h2 ⊢
    omega⟩

/-- The effect schedule of `prefetchAllPairExchanges`: the records sorted by
the comparator above, and for each a daily refresh, an hourly refresh, and a
`delay(throttles.fetchHisto / pairExchanges.length)`. -/
def prefetchAllPairExchanges (pairExchanges : List DB_PairExchangeData) :
    List PrefetchStep :=
  let sorted := List.insertionSort prefetchSortRel pairExchanges
  sorted.flatMap
    (fun pairExchange =>
      [PrefetchStep.refresh pairExchange.id .daily,
       PrefetchStep.refresh pairExchange.id .hourly,
       PrefetchStep.sleep (throttles_fetchHisto / (pairExchanges.length : ℚ))])

/-- The timestamp by which the amended prefetch claim orders records:
`Number(latestDate)` with `null` as 0. -/
def latestTs (r : DB_PairExchangeData) : Int :=
  match r.latestDate with
  | some d => d
  | none => 0

/-- A small concrete registry for the worked examples: BTC (magnitude 8),
ETH (magnitude 18), USD (magnitude 2). -/
def regExample : Registry :=
  [⟨"BTC", 8⟩, ⟨"ETH", 18⟩, ⟨"USD", 2⟩]

/-- Scenario S5's record X: one full year of history, low volume. -/
def volumeRecordX : DB_PairExchangeData :=
  { id := "x_BTC_USD"
    exchange := "x"
    fromTicker := "BTC"
    toTicker := "USD"
    from_to := "BTC_USD"
    latest := 1
    latestDate := none
    yesterdayVolume := 10
    hasHistoryFor1Year := true
    hasHistoryFor30LastDays := true
    historyLoadedAt_daily := none
    historyLoadedAt_hourly := none
    histo_daily := []
    histo_hourly := [] }

/-- Scenario S5's record Y: no full year of history, high volume. -/
def volumeRecordY : DB_PairExchangeData :=
  { id := "y_BTC_USD"
    exchange := "y"
    fromTicker := "BTC"
    toTicker := "USD"
    from_to := "BTC_USD"
    latest := 2
    latestDate := none
    yesterdayVolume := 1000
    hasHistoryFor1Year := false
    hasHistoryFor30LastDays := true
    historyLoadedAt_daily := none
    historyLoadedAt_hourly := none
    histo_daily := []
    histo_hourly := [] }

/-- A record with recent live activity (`latestDate` set). -/
def prefetchRecent : DB_PairExchangeData :=
  { volumeRecordX with id := "recent_BTC_USD", latestDate := some 1700000000000 }

/-- A record that never saw a live update (`latestDate` null). -/
def prefetchNull : DB_PairExchangeData :=
  { volumeRecordX with id := "null_BTC_USD", latestDate := none }

/-- The `now` instant of the stats counterexample
(2023-11-14T22:13:20 UTC). -/
def statsCexNow : Int := 1700000000000

/-- The daily histo of the stats counterexample: a `latest` key with value
0, and the 19 scanned daily buckets 2 … 20 days old each with rate 1. -/
def statsCexHisto : List (String × ℚ) :=
  (latestKey, 0) ::
    (List.range 19).map
      (fun k =>
        (formatTime (msToDate (statsCexNow - ((k : Int) + 2) * granularityMs .daily)) .daily, 1))

/-- Eligibility of a record for default candidate selection of a request
pair: it matches the pair query, survives the blacklist filter, and has
`hasHistoryFor30LastDays`. -/
def eligibleForPairSelection (blacklist : List String) (f t : String)
    (r : DB_PairExchangeData) : Prop :=
  r.from_to = f ++ "_" ++ t ∧ isAcceptedExchange blacklist r.exchange = true ∧
    r.fromTicker = f ∧ r.toTicker = t ∧ r.hasHistoryFor30LastDays = true


theorem alookup_objSet {α : Type} (m : List (String × α)) (key : String) (v : α)
    (k2 : String) :
    alookup (objSet m key v) k2 = if k2 = key then some v else alookup m k2 := by
  induction m with
  | nil => simp [objSet, alookup]
  | cons p t ih =>
    obtain ⟨k, w⟩ := p
    by_cases hk : k = key
    · subst hk
      by_cases h2 : k2 = k <;> simp [objSet, alookup, h2]
    · by_cases h2 : k2 = k
      · subst h2
        simp [objSet, hk, alookup, Ne.symm hk]
      · simp [objSet, hk, alookup, h2, ih]

/-- C10: in every per-pair entry of a `getHistoRequest` response, the
`latest` key is present and equals the record's live `latest` field — it is
assigned after key filtering, so it survives any `at`/`after` filter and
overwrites any `latest` value of the refreshed histo — and every other key
is exactly as the filtering loop left it. -/
theorem getHistoRequest_latest_always_present_C10 :
    ∀ (histo : List (String × ℚ)) (afterFilter : Option String)
      (atFilter : Option (List String)) (recordLatest : ℚ),
      alookup (getHistoRequestPairResult histo afterFilter atFilter recordLatest) latestKey
          = some recordLatest ∧
      (∀ k, k ≠ latestKey →
        alookup (getHistoRequestPairResult histo afterFilter atFilter recordLatest) k
          = alookup (getHistoFilteredResult histo afterFilter atFilter) k) := by
  intro histo afterFilter atFilter recordLatest
  constructor
  · rw [getHistoRequestPairResult, alookup_objSet]
    simp
  · intro k hk
    rw [getHistoRequestPairResult, alookup_objSet]
    simp [hk]

theorem getHistoRequest_latest_always_present_C10_witness :
    alookup (getHistoRequestPairResult [(latestKey, 5)] none (some []) 7) latestKey
        = some 7 ∧
    alookup (getHistoRequestPairResult [(latestKey, 5)] none (some []) 7) ("2020-01-01")
        = alookup (getHistoFilteredResult [(latestKey, 5)] none (some [])) ("2020-01-01") :=
  ⟨(getHistoRequest_latest_always_present_C10 [(latestKey, 5)] none (some []) 7).1,
   (getHistoRequest_latest_always_present_C10 [(latestKey, 5)] none (some []) 7).2
     ("2020-01-01") (by decide)⟩

/-- C6: when the record exists and is not already loaded for the current
bucket, a failing provider fetch does not propagate: the body logs the
failure, performs no store write, and returns the record's previously
cached histo of that granularity. -/
theorem fetchAndCacheHisto_failure_returns_cached_C6 :
    ∀ (pe : DB_PairExchangeData) (g : Granularity) (nowKey e : String),
      historyLoadedAt pe g ≠ some nowKey →
      fetchAndCacheHistoBody (some pe) g nowKey (.err e) =
        ⟨true, true, none, some (histoOf pe g)⟩ := by
  intro pe g nowKey e h
  simp [fetchAndCacheHistoBody, h]

theorem fetchAndCacheHisto_failure_returns_cached_C6_witness :
    fetchAndCacheHistoBody (some volumeRecordX) .daily ("2023-11-14") (.err ("boom")) =
      ⟨true, true, none, some (histoOf volumeRecordX .daily)⟩ :=
  fetchAndCacheHisto_failure_returns_cached_C6 volumeRecordX .daily ("2023-11-14")
    ("boom") (by decide)

/-- C1: two calls to a `promiseThrottle`d action within one window start
the underlying action once, and both observe the first invocation's result;
after a failed invocation the error is not served from cache — the next
call re-runs the action whatever its time. -/
theorem promiseThrottle_coalesces_and_errors_invalidate_C1 :
    ∀ (α ε : Type) (wait t0 t1 : Nat) (a : α) (e : ε) (o1 : JSResult ε α),
      (t1 - t0 < wait →
        promiseThrottle wait none [(t0, .ok a), (t1, o1)] =
          [(.ok a, true), (.ok a, false)]) ∧
      promiseThrottle wait none [(t0, .err e), (t1, o1)] =
        [(.err e, true), (o1, true)] := by
  intro α ε wait t0 t1 a e o1
  constructor
  · intro h
    simp [promiseThrottle, Nat.not_le.mpr h]
  · cases o1 <;> simp [promiseThrottle]

theorem promiseThrottle_coalesces_and_errors_invalidate_C1_witness :
    @promiseThrottle Nat Nat 10 none [(0, .ok 1), (5, .ok 2)] =
        [(.ok 1, true), (.ok 1, false)] ∧
    @promiseThrottle Nat Nat 10 none [(0, .err 7), (5, .ok 2)] =
        [(.err 7, true), (.ok 2, true)] :=
  ⟨(promiseThrottle_coalesces_and_errors_invalidate_C1 Nat Nat 10 0 5 1 7 (.ok 2)).1
      (by decide),
   (promiseThrottle_coalesces_and_errors_invalidate_C1 Nat Nat 10 0 5 1 7 (.ok 2)).2⟩

/-- C9: when the daily histo has no non-`latest` key, `syncPairStats`
performs no store write at all: `updatePairExchangeStats` is never reached
and the record is left untouched. -/
theorem syncPairStats_empty_days_no_write_C9 :
    ∀ (reg : Registry) (env : Option Nat) (nowMs : Int) (pairExchangeId : String)
      (histoDays : List (String × ℚ)),
      (histoDays.map Prod.fst).filter (fun k => k ≠ latestKey) = [] →
      syncPairStatsWrite (syncPairStats reg env nowMs pairExchangeId histoDays) = none := by
  intro reg env nowMs pairExchangeId histoDays h
  rcases hf : (pairExchangeFromId pairExchangeId).fromTicker.bind (getFiatOrCurrency reg) with _ | cf
  · simp [syncPairStats, syncPairStatsWrite, hf]
  · rcases ht : (pairExchangeFromId pairExchangeId).toTicker.bind (getFiatOrCurrency reg) with _ | ct
    · simp [syncPairStats, syncPairStatsWrite, hf, ht]
    · unfold syncPairStats syncPairStatsWrite
      dsimp only
      rw [hf, ht, h]
      simp

theorem syncPairStats_empty_days_no_write_C9_witness :
    syncPairStatsWrite
        (syncPairStats regExample none 0 ("kraken_BTC_USD") [(latestKey, 5)]) = none :=
  syncPairStats_empty_days_no_write_C9 regExample none 0 ("kraken_BTC_USD")
    [(latestKey, 5)] (by decide)

theorem pairExchangeFromId_id (s : String) : (pairExchangeFromId s).id = s := rfl

theorem getFiatOrCurrency_isSome_of_support (reg : Registry) (t : String)
    (h : supportTicker reg t = true) : (getFiatOrCurrency reg t).isSome = true := by
  induction reg with
  | nil => simp [supportTicker, allTickers] at h
  | cons c rest ih =>
    by_cases hc : t = c.ticker
    · simp [getFiatOrCurrency, List.find?, hc]
    · have h2 : supportTicker rest t = true := by
        simp [supportTicker, allTickers, List.contains_cons] at h ⊢
        rcases h with h | h
        · exact absurd h hc
        · exact h
      have h3 := ih h2
      simpa [getFiatOrCurrency, List.find?, hc] using h3

theorem priceUpdateRate_isSome_of_supported (reg : Registry) (msg : PriceUpdate)
    (h : priceUpdateSupported reg msg = true) : (priceUpdateRate reg msg).isSome = true := by
  unfold priceUpdateSupported at h
  unfold priceUpdateRate
  rcases hf : (pairExchangeFromId msg.pairExchangeId).fromTicker with _ | f
  · rw [hf] at h
    simp at h
  · rcases ht : (pairExchangeFromId msg.pairExchangeId).toTicker with _ | t2
    · rw [hf, ht] at h
      simp at h
    · rw [hf, ht] at h
      simp at h
      obtain ⟨h1, h2⟩ := h
      have hcf := getFiatOrCurrency_isSome_of_support reg f h1
      have hct := getFiatOrCurrency_isSome_of_support reg t2 h2
      rcases hcfe : getFiatOrCurrency reg f with _ | cf
      · rw [hcfe] at hcf
        simp at hcf
      · rcases hcte : getFiatOrCurrency reg t2 with _ | ct
        · rw [hcte] at hct
          simp at hct
        · simp [hcfe, hcte]

theorem lastSupportedRate_fold (reg : Registry) (k : String) :
    ∀ (buf : List PriceUpdate) (acc : Option ℚ),
      buf.foldl
          (fun acc msg =>
            if msg.pairExchangeId = k ∧ priceUpdateSupported reg msg = true then priceUpdateRate reg msg
            else acc) acc
        = match lastSupportedRate reg buf k with
          | some v => some v
          | none => acc := by
  intro buf
  induction buf with
  | nil =>
    intro acc
    simp [lastSupportedRate]
  | cons msg t ih =>
    intro acc
    simp only [List.foldl_cons, lastSupportedRate]
    rw [ih, ih]
    rcases hl : lastSupportedRate reg t k with _ | v
    · simp only [hl]
      by_cases hc : msg.pairExchangeId = k ∧ priceUpdateSupported reg msg = true
      · rcases hr : priceUpdateRate reg msg with _ | r
        · have h2 := priceUpdateRate_isSome_of_supported reg msg hc.2
          rw [hr] at h2
          simp at h2
        · simp [hc, hr]
      · simp [hc]
    · simp [hl]

theorem lastSupportedRate_cons (reg : Registry) (k : String) (msg : PriceUpdate)
    (t : List PriceUpdate) :
    lastSupportedRate reg (msg :: t) k =
      match lastSupportedRate reg t k with
      | some v => some v
      | none =>
        if msg.pairExchangeId = k ∧ priceUpdateSupported reg msg = true then priceUpdateRate reg msg
        else none := by
  simp only [lastSupportedRate, List.foldl_cons]
  rw [lastSupportedRate_fold]
  rfl

theorem pullLiveRatesStep_alookup (reg : Registry) (m0 : List (String × ℚ))
    (msg : PriceUpdate) (k : String) :
    alookup (pullLiveRatesStep reg m0 msg) k =
      if msg.pairExchangeId = k ∧ priceUpdateSupported reg msg = true then
        match priceUpdateRate reg msg with
        | some r => some r
        | none => alookup m0 k
      else alookup m0 k := by
  unfold pullLiveRatesStep priceUpdateSupported priceUpdateRate
  dsimp only
  rcases hf : (pairExchangeFromId msg.pairExchangeId).fromTicker with _ | f
  · simp [hf]
  · rcases ht : (pairExchangeFromId msg.pairExchangeId).toTicker with _ | t2
    · simp [hf, ht]
    · simp only [hf, ht]
      cases hb1 : supportTicker reg f <;> cases hb2 : supportTicker reg t2
      · simp [hb1, hb2]
      · simp [hb1, hb2]
      · simp [hb1, hb2]
      · have hcf := getFiatOrCurrency_isSome_of_support reg f hb1
        have hct := getFiatOrCurrency_isSome_of_support reg t2 hb2
        rcases hcfe : getFiatOrCurrency reg f with _ | cf
        · rw [hcfe] at hcf
          simp at hcf
        · rcases hcte : getFiatOrCurrency reg t2 with _ | ct
          · rw [hcte] at hct
            simp at hct
          · by_cases hk : k = msg.pairExchangeId
            · simp [hb1, hb2, hcfe, hcte, alookup_objSet, pairExchangeFromId_id, hk]
            · have hk2 : ¬ msg.pairExchangeId = k := fun h => hk h.symm
              simp [hb1, hb2, hcfe, hcte, alookup_objSet, pairExchangeFromId_id, hk, hk2]

theorem pullLiveRates_fold_alookup (reg : Registry) (k : String) :
    ∀ (buf : List PriceUpdate) (m0 : List (String × ℚ)),
      alookup (buf.foldl (pullLiveRatesStep reg) m0) k =
        match lastSupportedRate reg buf k with
        | some v => some v
        | none => alookup m0 k := by
  intro buf
  induction buf with
  | nil =>
    intro m0
    simp [lastSupportedRate]
  | cons msg t ih =>
    intro m0
    simp only [List.foldl_cons]
    rw [ih, lastSupportedRate_cons]
    rcases hl : lastSupportedRate reg t k with _ | v
    · rw [pullLiveRatesStep_alookup]
      by_cases hc : msg.pairExchangeId = k ∧ priceUpdateSupported reg msg = true
      · simp only [hc, if_true]
        rcases hr : priceUpdateRate reg msg with _ | r
        · have h2 := priceUpdateRate_isSome_of_supported reg msg hc.2
          rw [hr] at h2
          simp at h2
        · simp
      · simp [hc]
    · simp

theorem lastSupportedRate_mem (reg : Registry) (k : String) :
    ∀ (buf : List PriceUpdate) (r : ℚ),
      lastSupportedRate reg buf k = some r →
      ∃ msg ∈ buf, msg.pairExchangeId = k ∧ priceUpdateSupported reg msg = true ∧
        priceUpdateRate reg msg = some r := by
  intro buf
  induction buf with
  | nil =>
    intro r h
    simp [lastSupportedRate] at h
  | cons msg t ih =>
    intro r h
    rw [lastSupportedRate_cons] at h
    rcases hl : lastSupportedRate reg t k with _ | v
    · rw [hl] at h
      by_cases hc : msg.pairExchangeId = k ∧ priceUpdateSupported reg msg = true
      · rw [if_pos hc] at h
        exact ⟨msg, by simp, hc.1, hc.2, h⟩
      · rw [if_neg hc] at h
        simp at h
    · rw [hl] at h
      simp at h
      subst h
      obtain ⟨m2, hm2, hrest⟩ := ih v hl
      exact ⟨m2, by simp [hm2], hrest⟩

theorem mem_keys_objSet {α : Type} (key : String) (v : α) (x : String) :
    ∀ (m : List (String × α)),
      (x ∈ (objSet m key v).map Prod.fst ↔ x ∈ m.map Prod.fst ∨ x = key) := by
  intro m
  induction m with
  | nil => simp [objSet]
  | cons p t ih =>
    obtain ⟨a, b⟩ := p
    by_cases ha : a = key
    · subst ha
      simp [objSet]
      tauto
    · simp [objSet, ha, ih]
      tauto

theorem keys_nodup_objSet {α : Type} (key : String) (v : α) :
    ∀ (m : List (String × α)),
      (m.map Prod.fst).Nodup → ((objSet m key v).map Prod.fst).Nodup := by
  intro m
  induction m with
  | nil =>
    intro _
    simp [objSet]
  | cons p t ih =>
    intro h
    obtain ⟨a, b⟩ := p
    rw [List.map_cons, List.nodup_cons] at h
    by_cases ha : a = key
    · subst ha
      simpa [objSet] using h
    · simp only [objSet, if_neg ha, List.map_cons, List.nodup_cons]
      refine ⟨fun hmem => ?_, ih h.2⟩
      rcases (mem_keys_objSet key v a t).mp hmem with h2 | h2
      · exact h.1 h2
      · exact ha h2

theorem pullLiveRates_fold_keys_nodup (reg : Registry) :
    ∀ (buf : List PriceUpdate) (m0 : List (String × ℚ)),
      (m0.map Prod.fst).Nodup →
      ((buf.foldl (pullLiveRatesStep reg) m0).map Prod.fst).Nodup := by
  intro buf
  induction buf with
  | nil =>
    intro m0 h
    simpa using h
  | cons msg t ih =>
    intro m0 h
    simp only [List.foldl_cons]
    apply ih
    unfold pullLiveRatesStep
    dsimp only
    split
    · split
      · split
        · exact keys_nodup_objSet _ _ _ h
        · exact h
      · exact h
    · exact h

/-- C3: an empty one-second batch produces no store call; a non-empty batch
produces exactly one `updateLiveRates` call whose list has pairwise-distinct
ids and maps each id to the rate of the last supported update for that id in
the batch (and contains an id iff such an update exists); in particular the
stream `(A,10), (B,20), (A,11), (A,12)` within one window yields a single
call carrying exactly `A → rate(12)` and `B → rate(20)`. -/
theorem pullLiveRates_batch_coalescing_C3 :
    (∀ reg : Registry, pullLiveRatesBatch reg [] = none) ∧
    (∀ (reg : Registry) (buf : List PriceUpdate),
      buf ≠ [] →
      ∃ l, pullLiveRatesBatch reg buf = some l ∧
        (l.map Prod.fst).Nodup ∧
        ∀ k, alookup l k = lastSupportedRate reg buf k) ∧
    pullLiveRatesBatch regExample
        [⟨"kraken_BTC_USD", 10⟩, ⟨"kraken_ETH_USD", 20⟩,
         ⟨"kraken_BTC_USD", 11⟩, ⟨"kraken_BTC_USD", 12⟩] =
      some [("kraken_BTC_USD", convertToCentSatRate ⟨"BTC", 8⟩ ⟨"USD", 2⟩ 12),
            ("kraken_ETH_USD", convertToCentSatRate ⟨"ETH", 18⟩ ⟨"USD", 2⟩ 20)] := by
  refine ⟨fun reg => rfl, fun reg buf hne => ?_, ?_⟩
  · refine ⟨buf.foldl (pullLiveRatesStep reg) [], ?_, ?_, ?_⟩
    · rcases buf with _ | ⟨m, t⟩
      · exact absurd rfl hne
      · simp [pullLiveRatesBatch]
    · exact pullLiveRates_fold_keys_nodup reg buf [] (by simp)
    · intro k
      rw [pullLiveRates_fold_alookup]
      rcases hv : lastSupportedRate reg buf k with _ | v <;> simp [alookup]
  · rfl

theorem pullLiveRates_batch_coalescing_C3_witness :
    ∃ l, pullLiveRatesBatch regExample [⟨"kraken_BTC_USD", 10⟩] = some l ∧
      (l.map Prod.fst).Nodup ∧
      ∀ k, alookup l k = lastSupportedRate regExample [⟨"kraken_BTC_USD", 10⟩] k :=
  pullLiveRates_batch_coalescing_C3.2.1 regExample [⟨"kraken_BTC_USD", 10⟩] (by simp)

theorem alookup_foldl_objSet_mem {α : Type} (keyf : α → String) (valf : α → ℚ) :
    ∀ (l : List α) (m0 : List (String × ℚ)) (k : String) (r : ℚ),
      alookup (l.foldl (fun histo data => objSet histo (keyf data) (valf data)) m0) k = some r →
      alookup m0 k = some r ∨ ∃ p ∈ l, r = valf p := by
  intro l
  induction l with
  | nil =>
    intro m0 k r h
    exact Or.inl h
  | cons a t ih =>
    intro m0 k r h
    simp only [List.foldl_cons] at h
    rcases ih _ _ _ h with h2 | h2
    · rw [alookup_objSet] at h2
      by_cases hk : k = keyf a
      · rw [if_pos hk] at h2
        exact Or.inr ⟨a, by simp, (Option.some_inj.mp h2).symm⟩
      · rw [if_neg hk] at h2
        exact Or.inl h2
    · obtain ⟨p, hp, hr⟩ := h2
      exact Or.inr ⟨p, by simp [hp], hr⟩

theorem priceUpdateRate_some (reg : Registry) (msg : PriceUpdate) (r : ℚ)
    (h : priceUpdateRate reg msg = some r) :
    ∃ cf ct,
      (pairExchangeFromId msg.pairExchangeId).fromTicker.bind (getFiatOrCurrency reg) = some cf ∧
      (pairExchangeFromId msg.pairExchangeId).toTicker.bind (getFiatOrCurrency reg) = some ct ∧
      r = convertToCentSatRate cf ct msg.price := by
  unfold priceUpdateRate at h
  rcases hf : (pairExchangeFromId msg.pairExchangeId).fromTicker with _ | f
  · rw [hf] at h
    simp at h
  · rcases ht : (pairExchangeFromId msg.pairExchangeId).toTicker with _ | t2
    · rw [hf, ht] at h
      simp at h
    · rw [hf, ht] at h
      dsimp only at h
      rcases hcf : getFiatOrCurrency reg f with _ | cf
      · rw [hcf] at h
        simp at h
      · rcases hct : getFiatOrCurrency reg t2 with _ | ct
        · rw [hcf, hct] at h
          simp at h
        · rw [hcf, hct] at h
          simp at h
          exact ⟨cf, ct, by simp [hf, hcf], by simp [ht, hct], h.symm⟩

/-- C2: every rate the engine writes is the provider's raw value times
`10^(magnitude(to) − magnitude(from))`: `convertToCentSatRate` is exactly
that formula, every value of a `fetchHisto` histo is the conversion of some
provider point's close, every value of a coalesced live-rate batch is the
conversion of some buffered update's price, and for BTC (magnitude 8) to
USD (magnitude 2) with raw close 23456.78 the stored rate is exactly
0.02345678. -/
theorem stored_rates_normalised_C2 :
    (∀ (fromCur toCur : Currency) (value : ℚ),
      convertToCentSatRate fromCur toCur value =
        value * (10 : ℚ) ^ (lenseMagnitude toCur - lenseMagnitude fromCur)) ∧
    (∀ (reg : Registry) (nowMs : Int) (g : Granularity) (id : String)
       (history : List OHLCV) (fromCur toCur : Currency) (k : String) (r : ℚ),
      (pairExchangeFromId id).fromTicker.bind (getFiatOrCurrency reg) = some fromCur →
      (pairExchangeFromId id).toTicker.bind (getFiatOrCurrency reg) = some toCur →
      alookup (fetchHisto reg nowMs g id history) k = some r →
      ∃ p ∈ history, r = convertToCentSatRate fromCur toCur p.close) ∧
    (∀ (reg : Registry) (buf : List PriceUpdate) (l : List (String × ℚ)) (k : String) (r : ℚ),
      pullLiveRatesBatch reg buf = some l →
      alookup l k = some r →
      ∃ msg ∈ buf, ∃ cf ct,
        (pairExchangeFromId msg.pairExchangeId).fromTicker.bind (getFiatOrCurrency reg) = some cf ∧
        (pairExchangeFromId msg.pairExchangeId).toTicker.bind (getFiatOrCurrency reg) = some ct ∧
        r = convertToCentSatRate cf ct msg.price) ∧
    convertToCentSatRate ⟨"BTC", 8⟩ ⟨"USD", 2⟩ (2345678 / 100) = 2345678 / 100000000 := by
  refine ⟨fun fromCur toCur value => rfl, ?_, ?_, ?_⟩
  · intro reg nowMs g id history fromCur toCur k r hf ht h
    unfold fetchHisto at h
    dsimp only at h
    rw [hf, ht] at h
    have h2 := alookup_foldl_objSet_mem
      (fun data =>
        if nowMs - granularityMs g < data.time then latestKey
        else formatTime (msToDate data.time) g)
      (fun data => convertToCentSatRate fromCur toCur data.close)
      (List.insertionSort timeDescRel history) [] k r h
    rcases h2 with h2 | h2
    · simp [alookup] at h2
    · obtain ⟨p, hp, hr⟩ := h2
      exact ⟨p, (List.perm_insertionSort timeDescRel history).subset hp, hr⟩
  · intro reg buf l k r hb h
    have hl : l = buf.foldl (pullLiveRatesStep reg) [] := by
      unfold pullLiveRatesBatch at hb
      rcases buf with _ | ⟨m, t⟩
      · simp at hb
      · simp at hb
        exact hb.symm
    subst hl
    rw [pullLiveRates_fold_alookup] at h
    rcases hv : lastSupportedRate reg buf k with _ | v
    · rw [hv] at h
      simp [alookup] at h
    · rw [hv] at h
      simp at h
      subst h
      obtain ⟨msg, hmem, _, _, hrate⟩ := lastSupportedRate_mem reg k buf v hv
      obtain ⟨cf, ct, hcf, hct, hr⟩ := priceUpdateRate_some reg msg v hrate
      exact ⟨msg, hmem, cf, ct, hcf, hct, hr⟩
  · norm_num [convertToCentSatRate, lenseMagnitude]

theorem stored_rates_normalised_C2_witness :
    (∃ p ∈ [({ time := 1700000000000, close := 100, volume := 5 } : OHLCV)],
      convertToCentSatRate ⟨"BTC", 8⟩ ⟨"USD", 2⟩ 100 =
        convertToCentSatRate ⟨"BTC", 8⟩ ⟨"USD", 2⟩ p.close) ∧
    (∃ msg ∈ [({ pairExchangeId := "kraken_BTC_USD", price := 10 } : PriceUpdate)],
      ∃ cf ct,
        (pairExchangeFromId msg.pairExchangeId).fromTicker.bind (getFiatOrCurrency regExample) = some cf ∧
        (pairExchangeFromId msg.pairExchangeId).toTicker.bind (getFiatOrCurrency regExample) = some ct ∧
        convertToCentSatRate ⟨"BTC", 8⟩ ⟨"USD", 2⟩ 10 = convertToCentSatRate cf ct msg.price) :=
  ⟨stored_rates_normalised_C2.2.1 regExample 1700000000000 .daily ("kraken_BTC_USD")
      [{ time := 1700000000000, close := 100, volume := 5 }] ⟨"BTC", 8⟩ ⟨"USD", 2⟩
      latestKey (convertToCentSatRate ⟨"BTC", 8⟩ ⟨"USD", 2⟩ 100) rfl rfl rfl,
   stored_rates_normalised_C2.2.2.1 regExample
      [{ pairExchangeId := "kraken_BTC_USD", price := 10 }]
      [("kraken_BTC_USD", convertToCentSatRate ⟨"BTC", 8⟩ ⟨"USD", 2⟩ 10)]
      ("kraken_BTC_USD") (convertToCentSatRate ⟨"BTC", 8⟩ ⟨"USD", 2⟩ 10) rfl rfl⟩

theorem sorted_filter_head_max (l : List DB_PairExchangeData)
    (p1 p2 : DB_PairExchangeData → Bool) (r : DB_PairExchangeData)
    (h : (((List.insertionSort volDescRel l).filter p1).filter p2).head? = some r) :
    (r ∈ l ∧ p1 r = true ∧ p2 r = true) ∧
      ∀ x ∈ l, p1 x = true → p2 x = true → x.yesterdayVolume ≤ r.yesterdayVolume := by
  have hsorted : ((List.insertionSort volDescRel l).filter p1).filter p2
      |>.Pairwise volDescRel := by
    apply List.Pairwise.sublist
    · exact ((List.filter_sublist _).trans (List.filter_sublist _))
    · exact List.sorted_insertionSort volDescRel l
  rcases hc : ((List.insertionSort volDescRel l).filter p1).filter p2 with _ | ⟨a, rest⟩
  · rw [hc] at h
    simp at h
  · rw [hc, List.head?_cons] at h
    replace h := (Option.some.inj h).symm
    subst h
    have hmem : r ∈ ((List.insertionSort volDescRel l).filter p1).filter p2 := by
      rw [hc]
      exact List.mem_cons_self _ _
    have hr1 := List.mem_filter.mp hmem
    have hr2 := List.mem_filter.mp hr1.1
    refine ⟨⟨(List.perm_insertionSort volDescRel l).subset hr2.1, hr2.2, hr1.2⟩, ?_⟩
    intro x hx hp1 hp2
    have hxmem : x ∈ ((List.insertionSort volDescRel l).filter p1).filter p2 := by
      apply List.mem_filter.mpr
      refine ⟨List.mem_filter.mpr ⟨?_, hp1⟩, hp2⟩
      exact ((List.perm_insertionSort volDescRel l).symm.subset) hx
    rw [hc] at hxmem hsorted
    rcases List.mem_cons.mp hxmem with hq | hq
    · subst hq
      exact le_refl _
    · exact (List.pairwise_cons.mp hsorted).1 x hq

/-- C4 (amended): with no explicit exchange, `getHistoRequest` picks the
head of the records for the pair sorted by `yesterdayVolume` descending
only (the sort cursor ignores `hasHistoryFor1Year`), after blacklist
filtering and the `hasHistoryFor30LastDays` candidate filter: the chosen
record is eligible and has maximal `yesterdayVolume` among the eligible
records. -/
theorem getHisto_selection_highest_volume_C4 :
    ∀ (store : List DB_PairExchangeData) (blacklist : List String) (f t : String)
      (r : DB_PairExchangeData),
      getHistoSelectedPairExchange store blacklist f t none = some r →
      (r ∈ store ∧ eligibleForPairSelection blacklist f t r) ∧
        ∀ x ∈ store, eligibleForPairSelection blacklist f t x →
          x.yesterdayVolume ≤ r.yesterdayVolume := by
  intro store blacklist f t r h
  unfold getHistoSelectedPairExchange selectPairExchange getPairExchangesForPairs
    filterPairExchanges queryPairExchangesByPairs queryPairExchangesSortCursor at h
  dsimp only at h
  have h2 := sorted_filter_head_max
    (store.filter (fun rec => [(f, t)].any (fun p => rec.from_to = p.1 ++ "_" ++ p.2)))
    (fun o => isAcceptedExchange blacklist o.exchange)
    (fun s => decide (s.fromTicker = f) && decide (s.toTicker = t) && s.hasHistoryFor30LastDays)
    r h
  obtain ⟨⟨hmem, hp1, hp2⟩, hmax⟩ := h2
  have hmem2 := List.mem_filter.mp hmem
  simp only [List.any_cons, List.any_nil, Bool.or_false, decide_eq_true_eq] at hmem2
  simp only [Bool.and_eq_true, decide_eq_true_eq] at hp2
  refine ⟨⟨hmem2.1, hmem2.2, hp1, hp2.1.1, hp2.1.2, hp2.2⟩, ?_⟩
  intro x hx he
  obtain ⟨he1, he2, he3, he4, he5⟩ := he
  apply hmax
  · apply List.mem_filter.mpr
    refine ⟨hx, ?_⟩
    simp [he1]
  · exact he2
  · simp [he3, he4, he5]

theorem getHisto_selection_highest_volume_C4_witness :
    (volumeRecordY ∈ [volumeRecordX, volumeRecordY] ∧
      eligibleForPairSelection [] ("BTC") ("USD") volumeRecordY) ∧
    ∀ x ∈ [volumeRecordX, volumeRecordY],
      eligibleForPairSelection [] ("BTC") ("USD") x →
      x.yesterdayVolume ≤ volumeRecordY.yesterdayVolume :=
  getHisto_selection_highest_volume_C4 [volumeRecordX, volumeRecordY] [] ("BTC") ("USD")
    volumeRecordY (by decide)

theorem getHisto_selection_C4_counterexample :
    getHistoSelectedPairExchange [volumeRecordX, volumeRecordY] [] ("BTC") ("USD") none
        = some volumeRecordY ∧
    volumeRecordY.exchange ≠ volumeRecordX.exchange ∧
    volumeRecordX.hasHistoryFor1Year = true ∧
    volumeRecordY.hasHistoryFor1Year = false ∧
    volumeRecordX.yesterdayVolume = 10 ∧
    volumeRecordY.yesterdayVolume = 1000 ∧
    volumeRecordX.hasHistoryFor30LastDays = true ∧
    volumeRecordY.hasHistoryFor30LastDays = true := by
  decide

/-- C5 (amended): `prefetchAllPairExchanges` walks the pair-exchanges in
ascending `Number(latestDate)` order — never-live records (null
`latestDate`, priced as 0) first, most recently live records last — and for
each sorted record issues the daily refresh, then the hourly refresh, then
sleeps `throttles.fetchHisto / N` where `N` is the total record count (the
sleep also follows the final record). -/
theorem prefetch_order_and_pacing_C5 :
    ∀ records : List DB_PairExchangeData,
      ∃ sorted : List DB_PairExchangeData,
        sorted.Perm records ∧
        sorted.Pairwise (fun a b => latestTs a ≤ latestTs b) ∧
        prefetchAllPairExchanges records =
          sorted.flatMap
            (fun pe =>
              [PrefetchStep.refresh pe.id .daily, PrefetchStep.refresh pe.id .hourly,
               PrefetchStep.sleep (throttles_fetchHisto / (records.length : ℚ))]) := by
  intro records
  refine ⟨List.insertionSort prefetchSortRel records, List.perm_insertionSort _ _, ?_, rfl⟩
  have hs := List.sorted_insertionSort prefetchSortRel records
  exact hs.imp
    (fun h => by
      unfold prefetchSortRel prioritizePairExchange at h
      unfold latestTs
      omega)

theorem prefetch_order_C5_counterexample :
    prefetchAllPairExchanges [prefetchRecent, prefetchNull] =
        [PrefetchStep.refresh ("null_BTC_USD") .daily,
         PrefetchStep.refresh ("null_BTC_USD") .hourly,
         PrefetchStep.sleep
           (throttles_fetchHisto / (([prefetchRecent, prefetchNull] : List DB_PairExchangeData).length : ℚ)),
         PrefetchStep.refresh ("recent_BTC_USD") .daily,
         PrefetchStep.refresh ("recent_BTC_USD") .hourly,
         PrefetchStep.sleep
           (throttles_fetchHisto / (([prefetchRecent, prefetchNull] : List DB_PairExchangeData).length : ℚ))] ∧
    (prefetchAllPairExchanges [prefetchRecent, prefetchNull]).head? =
        some (PrefetchStep.refresh ("null_BTC_USD") .daily) ∧
    PrefetchStep.refresh ("null_BTC_USD") Granularity.daily ≠
        PrefetchStep.refresh ("recent_BTC_USD") Granularity.daily := by
  refine ⟨rfl, rfl, ?_⟩
  decide

theorem natToRevDigitsAux_fuel :
    ∀ (f1 f2 n : Nat), n < f1 → n < f2 → natToRevDigitsAux f1 n = natToRevDigitsAux f2 n := by
  intro f1
  induction f1 with
  | zero =>
    intro f2 n h1
    omega
  | succ f ih =>
    intro f2 n h1 h2
    cases f2 with
    | zero => omega
    | succ f2 =>
      simp only [natToRevDigitsAux]
      by_cases h10 : n < 10
      · simp [h10]
      · have hd : n / 10 < n := Nat.div_lt_self (by omega) (by omega)
        simp only [h10, if_false]
        rw [ih f2 (n / 10) (by omega) (by omega)]

theorem natReprChars_lt_ten (n : Nat) (h : n < 10) : natReprChars n = [Nat.digitChar n] := by
  unfold natReprChars natToRevDigitsAux
  simp [h]

theorem natReprChars_ge_ten (n : Nat) (h : 10 ≤ n) :
    natReprChars n = natReprChars (n / 10) ++ [Nat.digitChar (n % 10)] := by
  have hd : n / 10 < n := Nat.div_lt_self (by omega) (by omega)
  unfold natReprChars
  conv_lhs => rw [natToRevDigitsAux]
  rw [if_neg (by omega)]
  rw [natToRevDigitsAux_fuel n (n / 10 + 1) (n / 10) (by omega) (by omega)]
  simp

theorem digitChar_isDigit (d : Nat) (h : d < 10) : (Nat.digitChar d).isDigit = true := by
  interval_cases d <;> decide

theorem digitChar_val (d : Nat) (h : d < 10) : (Nat.digitChar d).toNat - 48 = d := by
  interval_cases d <;> decide

theorem natReprChars_all_digits :
    ∀ n : Nat, ∀ c ∈ natReprChars n, c.isDigit = true := by
  intro n
  induction n using Nat.strong_induction_on with
  | _ n ih =>
    by_cases h : n < 10
    · rw [natReprChars_lt_ten n h]
      intro c hc
      simp at hc
      subst hc
      exact digitChar_isDigit n h
    · rw [natReprChars_ge_ten n (by omega)]
      intro c hc
      rcases List.mem_append.mp hc with hc2 | hc2
      · exact ih (n / 10) (Nat.div_lt_self (by omega) (by omega)) c hc2
      · simp at hc2
        subst hc2
        exact digitChar_isDigit (n % 10) (Nat.mod_lt _ (by omega))

theorem natReprChars_ne_nil (n : Nat) : natReprChars n ≠ [] := by
  by_cases h : n < 10
  · rw [natReprChars_lt_ten n h]
    simp
  · rw [natReprChars_ge_ten n (by omega)]
    simp

theorem digitsToNatAux_append (l1 l2 : List Char) :
    ∀ acc : Nat, digitsToNatAux acc (l1 ++ l2) = digitsToNatAux (digitsToNatAux acc l1) l2 := by
  induction l1 with
  | nil =>
    intro acc
    rfl
  | cons c t ih =>
    intro acc
    rw [List.cons_append]
    show digitsToNatAux (10 * acc + (c.toNat - 48)) (t ++ l2)
        = digitsToNatAux (digitsToNatAux (10 * acc + (c.toNat - 48)) t) l2
    exact ih _

theorem digitsToNat_natReprChars :
    ∀ n : Nat, digitsToNatAux 0 (natReprChars n) = n := by
  intro n
  induction n using Nat.strong_induction_on with
  | _ n ih =>
    by_cases h : n < 10
    · rw [natReprChars_lt_ten n h]
      show 10 * 0 + ((Nat.digitChar n).toNat - 48) = n
      have h2 := digitChar_val n h
      omega
    · rw [natReprChars_ge_ten n (by omega), digitsToNatAux_append,
        ih (n / 10) (Nat.div_lt_self (by omega) (by omega))]
      show 10 * (n / 10) + ((Nat.digitChar (n % 10)).toNat - 48) = n
      have h2 := digitChar_val (n % 10) (Nat.mod_lt _ (by omega))
      omega

theorem twoDigitsChars_all_digits (n : Nat) :
    ∀ c ∈ twoDigitsChars n, c.isDigit = true := by
  unfold twoDigitsChars
  by_cases h : n > 9
  · simp only [h, if_true]
    exact natReprChars_all_digits n
  · simp only [h, if_false]
    intro c hc
    rcases List.mem_cons.mp hc with hc2 | hc2
    · subst hc2
      decide
    · exact natReprChars_all_digits n c hc2

theorem twoDigitsChars_ne_nil (n : Nat) : twoDigitsChars n ≠ [] := by
  unfold twoDigitsChars
  by_cases h : n > 9
  · simp only [h, if_true]
    exact natReprChars_ne_nil n
  · simp [h]

theorem digitsToNat_twoDigitsChars (n : Nat) : digitsToNatAux 0 (twoDigitsChars n) = n := by
  unfold twoDigitsChars
  by_cases h : n > 9
  · simp only [h, if_true]
    exact digitsToNat_natReprChars n
  · simp only [h, if_false]
    show digitsToNatAux (10 * 0 + ('0'.toNat - 48)) (natReprChars n) = n
    norm_num
    exact digitsToNat_natReprChars n

theorem takeWhile_append_stop (p : Char → Bool) (b : Char) (l2 : List Char) :
    ∀ l1 : List Char, (∀ c ∈ l1, p c = true) → p b = false →
      ((l1 ++ b :: l2).takeWhile p = l1 ∧ (l1 ++ b :: l2).dropWhile p = b :: l2) := by
  intro l1
  induction l1 with
  | nil =>
    intro _ hb
    simp [List.takeWhile_cons, List.dropWhile_cons, hb]
  | cons c t ih =>
    intro hall hb
    have hc : p c = true := hall c (by simp)
    have ht := ih (fun x hx => hall x (by simp [hx])) hb
    simp [List.takeWhile_cons, List.dropWhile_cons, hc, ht.1, ht.2]

theorem takeWhile_all_digits (p : Char → Bool) :
    ∀ l : List Char, (∀ c ∈ l, p c = true) →
      (l.takeWhile p = l ∧ l.dropWhile p = []) := by
  intro l
  induction l with
  | nil =>
    intro _
    simp
  | cons c t ih =>
    intro hall
    have hc : p c = true := hall c (by simp)
    have ht := ih (fun x hx => hall x (by simp [hx]))
    simp [List.takeWhile_cons, List.dropWhile_cons, hc, ht.1, ht.2]

theorem parseNatChars_of_digits (ds : List Char) (b : Char) (l2 : List Char)
    (hne : ds ≠ []) (hall : ∀ c ∈ ds, c.isDigit = true) (hb : b.isDigit = false) :
    parseNatChars (ds ++ b :: l2) = some (digitsToNatAux 0 ds, b :: l2) := by
  obtain ⟨ht, hd⟩ := takeWhile_append_stop Char.isDigit b l2 ds hall hb
  unfold parseNatChars
  rw [ht, hd]
  have hie : ds.isEmpty = false := by
    rcases ds with _ | ⟨c, t⟩
    · exact absurd rfl hne
    · rfl
  simp [hie]

theorem parseNatChars_of_digits_end (ds : List Char)
    (hne : ds ≠ []) (hall : ∀ c ∈ ds, c.isDigit = true) :
    parseNatChars ds = some (digitsToNatAux 0 ds, []) := by
  obtain ⟨ht, hd⟩ := takeWhile_all_digits Char.isDigit ds hall
  unfold parseNatChars
  rw [ht, hd]
  have hie : ds.isEmpty = false := by
    rcases ds with _ | ⟨c, t⟩
    · exact absurd rfl hne
    · rfl
  simp [hie]

theorem parseNatSep_of_digits (sep : Char) (ds : List Char) (l2 : List Char)
    (hne : ds ≠ []) (hall : ∀ c ∈ ds, c.isDigit = true) (hsep : sep.isDigit = false) :
    parseNatSep sep (ds ++ sep :: l2) = some (digitsToNatAux 0 ds, l2) := by
  unfold parseNatSep
  rw [parseNatChars_of_digits ds sep l2 hne hall hsep]
  simp [parseCharThen]

theorem parseDayChars_format (d : JSDate) :
    parseDayChars (formatDayChars d) = some (d.year, d.month0 + 1, d.day) := by
  unfold formatDayChars parseDayChars
  rw [parseNatSep_of_digits '-' (natReprChars d.year)
      (twoDigitsChars (d.month0 + 1) ++ '-' :: twoDigitsChars d.day)
      (natReprChars_ne_nil _) (natReprChars_all_digits _) (by decide)]
  try dsimp only
  rw [parseNatSep_of_digits '-' (twoDigitsChars (d.month0 + 1)) (twoDigitsChars d.day)
      (twoDigitsChars_ne_nil _) (twoDigitsChars_all_digits _) (by decide)]
  try dsimp only
  rw [parseNatChars_of_digits_end (twoDigitsChars d.day)
      (twoDigitsChars_ne_nil _) (twoDigitsChars_all_digits _)]
  try dsimp only
  rw [digitsToNat_natReprChars, digitsToNat_twoDigitsChars, digitsToNat_twoDigitsChars]

theorem parseDateTimeChars_format (d : JSDate) :
    parseDateTimeChars (formatHourChars d ++ [':', '0', '0']) =
      some (d.year, d.month0 + 1, d.day, d.hours) := by
  unfold formatHourChars formatDayChars parseDateTimeChars
  simp only [List.append_assoc, List.cons_append, List.nil_append]
  rw [parseNatSep_of_digits '-' (natReprChars d.year) _
      (natReprChars_ne_nil _) (natReprChars_all_digits _) (by decide)]
  try dsimp only
  rw [parseNatSep_of_digits '-' (twoDigitsChars (d.month0 + 1)) _
      (twoDigitsChars_ne_nil _) (twoDigitsChars_all_digits _) (by decide)]
  try dsimp only
  rw [parseNatSep_of_digits 'T' (twoDigitsChars d.day) _
      (twoDigitsChars_ne_nil _) (twoDigitsChars_all_digits _) (by decide)]
  try dsimp only
  rw [parseNatSep_of_digits ':' (twoDigitsChars d.hours) _
      (twoDigitsChars_ne_nil _) (twoDigitsChars_all_digits _) (by decide)]
  try dsimp only
  rw [parseNatChars_of_digits_end ['0', '0'] (by decide) (by decide)]
  try dsimp only
  rw [digitsToNat_natReprChars, digitsToNat_twoDigitsChars, digitsToNat_twoDigitsChars,
    digitsToNat_twoDigitsChars]

/-- C8: bucket keys round-trip — for both granularities, formatting the
parse of a formatted key gives the key back (for the civil field ranges a
real engine date produces); the hourly parser is exactly the date-time
parse of the key with `":00"` appended; and the two-digit fields are
zero-padded. -/
theorem bucket_key_roundtrip_C8 :
    (∀ (d : JSDate) (g : Granularity),
      1000 ≤ d.year → d.month0 < 12 → 1 ≤ d.day → d.day ≤ 31 → d.hours < 24 →
      formatTime (parseTime (formatTime d g) g) g = formatTime d g) ∧
    (∀ s : String,
      parseTime s .hourly =
        match parseDateTimeChars (s.data ++ [':', '0', '0']) with
        | some (y, m, dd, h) => ⟨y, m - 1, dd, h⟩
        | none => ⟨0, 0, 0, 0⟩) ∧
    (∀ n : Nat, 1 ≤ n → n ≤ 9 → twoDigitsChars n = ['0', Nat.digitChar n]) := by
  refine ⟨?_, fun s => rfl, ?_⟩
  · intro d g _ _ _ _ _
    obtain ⟨y, m0, day, hh⟩ := d
    cases g
    · show formatTime (parseTime (formatDay ⟨y, m0, day, hh⟩) .daily) .daily = formatDay ⟨y, m0, day, hh⟩
      unfold parseTime formatDay
      rw [show (String.mk (formatDayChars ⟨y, m0, day, hh⟩)).data = formatDayChars ⟨y, m0, day, hh⟩ from rfl]
      rw [parseDayChars_format ⟨y, m0, day, hh⟩]
      rfl
    · show formatTime (parseTime (formatHour ⟨y, m0, day, hh⟩) .hourly) .hourly = formatHour ⟨y, m0, day, hh⟩
      unfold parseTime formatHour
      rw [show (String.mk (formatHourChars ⟨y, m0, day, hh⟩)).data = formatHourChars ⟨y, m0, day, hh⟩ from rfl]
      rw [parseDateTimeChars_format ⟨y, m0, day, hh⟩]
      rfl
  · intro n h1 h9
    unfold twoDigitsChars
    rw [if_neg (by omega), natReprChars_lt_ten n (by omega)]

theorem bucket_key_roundtrip_C8_witness :
    formatTime (parseTime (formatTime ⟨2023, 10, 14, 22⟩ .hourly) .hourly) .hourly =
        formatTime ⟨2023, 10, 14, 22⟩ .hourly ∧
    formatTime (parseTime (formatTime ⟨2023, 10, 14, 22⟩ .daily) .daily) .daily =
        formatTime ⟨2023, 10, 14, 22⟩ .daily ∧
    twoDigitsChars 7 = ['0', Nat.digitChar 7] :=
  ⟨bucket_key_roundtrip_C8.1 ⟨2023, 10, 14, 22⟩ .hourly (by decide) (by decide) (by decide)
      (by decide) (by decide),
   bucket_key_roundtrip_C8.1 ⟨2023, 10, 14, 22⟩ .daily (by decide) (by decide) (by decide)
      (by decide) (by decide),
   bucket_key_roundtrip_C8.2.2 7 (by decide) (by decide)⟩

theorem statsScan_fold (histoDays : List (String × ℚ)) :
    ∀ (keys : List String) (c : Nat) (mn mx : JSNum),
      keys.foldl
          (fun (acc : Nat × JSNum × JSNum) key =>
            match alookup histoDays key with
            | some v =>
              if 0 < v then (acc.1 + 1, jsMin2 acc.2.1 (.num v), jsMax2 acc.2.2 (.num v))
              else acc
            | none => acc)
          (c, mn, mx)
        = (c + (keys.filterMap
              (fun k =>
                match alookup histoDays k with
                | some v => if 0 < v then some v else none
                | none => none)).length,
           (keys.filterMap
              (fun k =>
                match alookup histoDays k with
                | some v => if 0 < v then some v else none
                | none => none)).foldl (fun a v => jsMin2 a (JSNum.num v)) mn,
           (keys.filterMap
              (fun k =>
                match alookup histoDays k with
                | some v => if 0 < v then some v else none
                | none => none)).foldl (fun a v => jsMax2 a (JSNum.num v)) mx) := by
  intro keys
  induction keys with
  | nil =>
    intro c mn mx
    simp
  | cons k t ih =>
    intro c mn mx
    simp only [List.foldl_cons, List.filterMap_cons]
    rcases halk : alookup histoDays k with _ | v
    · simp only [halk]
      rw [ih]
    · by_cases hv : (0 : ℚ) < v
      · simp only [halk, hv, if_true]
        rw [ih]
        simp only [List.length_cons, List.foldl_cons, Prod.mk.injEq, and_true, true_and]
        omega
      · simp only [halk, hv, if_false]
        rw [ih]

/-- C7 (amended): whenever `syncPairStats` writes stats, the persisted
`hasHistoryFor30LastDays` is true iff `historyCount ≥ MIN_DAYS` and the
max/min ratio over the scanned rates is valid (positive, finite, not NaN)
and strictly below 1000, where `MIN_DAYS = min(env ?? 20, 30)` and
`historyCount` counts the scanned daily buckets with positive stored rate
plus 1 when a `latest` key exists — but an existing `latest` value seeds
the running min/max only when it is nonzero (truthy); a zero `latest`
counts toward `historyCount` without seeding. -/
theorem syncPairStats_hasHistory30_formula_C7 :
    (∀ (reg : Registry) (env : Option Nat) (nowMs : Int) (pairExchangeId : String)
       (histoDays : List (String × ℚ)) (st : SyncStatsOut),
      syncPairStats reg env nowMs pairExchangeId histoDays = Except.ok (some st) →
      st.hasHistoryFor30LastDays = hasHistory30Amended histoDays nowMs env) ∧
    (∀ env : Option Nat,
      MINIMAL_DAYS_TO_CONSIDER_EXCHANGE env = min (env.getD 20) 30) := by
  refine ⟨?_, fun env => rfl⟩
  intro reg env nowMs pairExchangeId histoDays st h
  rcases hf : (pairExchangeFromId pairExchangeId).fromTicker.bind (getFiatOrCurrency reg) with _ | cf
  · rw [syncPairStats, hf] at h
    dsimp only at h
    exact absurd h (by simp)
  · rcases ht : (pairExchangeFromId pairExchangeId).toTicker.bind (getFiatOrCurrency reg) with _ | ct
    · rw [syncPairStats] at h
      dsimp only at h
      rw [hf, ht] at h
      dsimp only at h
      exact absurd h (by simp)
    · rw [syncPairStats] at h
      dsimp only at h
      rw [hf, ht] at h
      dsimp only at h
      by_cases hie :
          (((histoDays.map Prod.fst).filter (fun k => k ≠ latestKey)).map jsDateGetTime).isEmpty = true
      · rw [if_pos hie] at h
        exact absurd h (by simp)
      · rw [if_neg hie] at h
        have h2 := Option.some.inj (Except.ok.inj h)
        subst h2
        show
          (decide (MINIMAL_DAYS_TO_CONSIDER_EXCHANGE env ≤
              (((scanKeys nowMs).foldl
                (fun (acc : Nat × JSNum × JSNum) key =>
                  match alookup histoDays key with
                  | some v =>
                    if 0 < v then (acc.1 + 1, jsMin2 acc.2.1 (.num v), jsMax2 acc.2.2 (.num v))
                    else acc
                  | none => acc)
                ((if (alookup histoDays latestKey).isSome then 1 else 0),
                  (match alookup histoDays latestKey with
                    | some q => if q ≠ 0 then JSNum.num q else JSNum.inf
                    | none => JSNum.inf),
                  (match alookup histoDays latestKey with
                    | some q => if q ≠ 0 then JSNum.num q else JSNum.num 0
                    | none => JSNum.num 0))).1)) &&
            !(jsLe (jsDiv (((scanKeys nowMs).foldl
                (fun (acc : Nat × JSNum × JSNum) key =>
                  match alookup histoDays key with
                  | some v =>
                    if 0 < v then (acc.1 + 1, jsMin2 acc.2.1 (.num v), jsMax2 acc.2.2 (.num v))
                    else acc
                  | none => acc)
                ((if (alookup histoDays latestKey).isSome then 1 else 0),
                  (match alookup histoDays latestKey with
                    | some q => if q ≠ 0 then JSNum.num q else JSNum.inf
                    | none => JSNum.inf),
                  (match alookup histoDays latestKey with
                    | some q => if q ≠ 0 then JSNum.num q else JSNum.num 0
                    | none => JSNum.num 0))).2.2)
              (((scanKeys nowMs).foldl
                (fun (acc : Nat × JSNum × JSNum) key =>
                  match alookup histoDays key with
                  | some v =>
                    if 0 < v then (acc.1 + 1, jsMin2 acc.2.1 (.num v), jsMax2 acc.2.2 (.num v))
                    else acc
                  | none => acc)
                ((if (alookup histoDays latestKey).isSome then 1 else 0),
                  (match alookup histoDays latestKey with
                    | some q => if q ≠ 0 then JSNum.num q else JSNum.inf
                    | none => JSNum.inf),
                  (match alookup histoDays latestKey with
                    | some q => if q ≠ 0 then JSNum.num q else JSNum.num 0
                    | none => JSNum.num 0))).2.1)) (.num 0) ||
              !(jsIsFinite (jsDiv (((scanKeys nowMs).foldl
                (fun (acc : Nat × JSNum × JSNum) key =>
                  match alookup histoDays key with
                  | some v =>
                    if 0 < v then (acc.1 + 1, jsMin2 acc.2.1 (.num v), jsMax2 acc.2.2 (.num v))
                    else acc
                  | none => acc)
                ((if (alookup histoDays latestKey).isSome then 1 else 0),
                  (match alookup histoDays latestKey with
                    | some q => if q ≠ 0 then JSNum.num q else JSNum.inf
                    | none => JSNum.inf),
                  (match alookup histoDays latestKey with
                    | some q => if q ≠ 0 then JSNum.num q else JSNum.num 0
                    | none => JSNum.num 0))).2.2)
              (((scanKeys nowMs).foldl
                (fun (acc : Nat × JSNum × JSNum) key =>
                  match alookup histoDays key with
                  | some v =>
                    if 0 < v then (acc.1 + 1, jsMin2 acc.2.1 (.num v), jsMax2 acc.2.2 (.num v))
                    else acc
                  | none => acc)
                ((if (alookup histoDays latestKey).isSome then 1 else 0),
                  (match alookup histoDays latestKey with
                    | some q => if q ≠ 0 then JSNum.num q else JSNum.inf
                    | none => JSNum.inf),
                  (match alookup histoDays latestKey with
                    | some q => if q ≠ 0 then JSNum.num q else JSNum.num 0
                    | none => JSNum.num 0))).2.1))) ||
              jsIsNaN (jsDiv (((scanKeys nowMs).foldl
                (fun (acc : Nat × JSNum × JSNum) key =>
                  match alookup histoDays key with
                  | some v =>
                    if 0 < v then (acc.1 + 1, jsMin2 acc.2.1 (.num v), jsMax2 acc.2.2 (.num v))
                    else acc
                  | none => acc)
                ((if (alookup histoDays latestKey).isSome then 1 else 0),
                  (match alookup histoDays latestKey with
                    | some q => if q ≠ 0 then JSNum.num q else JSNum.inf
                    | none => JSNum.inf),
                  (match alookup histoDays latestKey with
                    | some q => if q ≠ 0 then JSNum.num q else JSNum.num 0
                    | none => JSNum.num 0))).2.2)
              (((scanKeys nowMs).foldl
                (fun (acc : Nat × JSNum × JSNum) key =>
                  match alookup histoDays key with
                  | some v =>
                    if 0 < v then (acc.1 + 1, jsMin2 acc.2.1 (.num v), jsMax2 acc.2.2 (.num v))
                    else acc
                  | none => acc)
                ((if (alookup histoDays latestKey).isSome then 1 else 0),
                  (match alookup histoDays latestKey with
                    | some q => if q ≠ 0 then JSNum.num q else JSNum.inf
                    | none => JSNum.inf),
                  (match alookup histoDays latestKey with
                    | some q => if q ≠ 0 then JSNum.num q else JSNum.num 0
                    | none => JSNum.num 0))).2.1))) &&
            jsLt (jsDiv (((scanKeys nowMs).foldl
                (fun (acc : Nat × JSNum × JSNum) key =>
                  match alookup histoDays key with
                  | some v =>
                    if 0 < v then (acc.1 + 1, jsMin2 acc.2.1 (.num v), jsMax2 acc.2.2 (.num v))
                    else acc
                  | none => acc)
                ((if (alookup histoDays latestKey).isSome then 1 else 0),
                  (match alookup histoDays latestKey with
                    | some q => if q ≠ 0 then JSNum.num q else JSNum.inf
                    | none => JSNum.inf),
                  (match alookup histoDays latestKey with
                    | some q => if q ≠ 0 then JSNum.num q else JSNum.num 0
                    | none => JSNum.num 0))).2.2)
              (((scanKeys nowMs).foldl
                (fun (acc : Nat × JSNum × JSNum) key =>
                  match alookup histoDays key with
                  | some v =>
                    if 0 < v then (acc.1 + 1, jsMin2 acc.2.1 (.num v), jsMax2 acc.2.2 (.num v))
                    else acc
                  | none => acc)
                ((if (alookup histoDays latestKey).isSome then 1 else 0),
                  (match alookup histoDays latestKey with
                    | some q => if q ≠ 0 then JSNum.num q else JSNum.inf
                    | none => JSNum.inf),
                  (match alookup histoDays latestKey with
                    | some q => if q ≠ 0 then JSNum.num q else JSNum.num 0
                    | none => JSNum.num 0))).2.1)) (.num MAXIMUM_RATIO_EXTREME_VARIATION))
          = hasHistory30Amended histoDays nowMs env
        rw [statsScan_fold]
        unfold hasHistory30Amended claimRatioOk claimRatio claimHistoryCount scanPositiveRates
        dsimp only
        rw [Nat.add_comm]
        generalize hm : decide (MINIMAL_DAYS_TO_CONSIDER_EXCHANGE env ≤ _) = m
        generalize ha : jsLe _ (JSNum.num 0) = a
        generalize hb : jsIsFinite _ = b
        generalize hc2 : jsIsNaN _ = c2
        generalize hl : jsLt _ (JSNum.num MAXIMUM_RATIO_EXTREME_VARIATION) = l2
        cases m <;> cases a <;> cases b <;> cases c2 <;> cases l2 <;> rfl

set_option maxRecDepth 100000 in
set_option maxHeartbeats 2000000 in
theorem syncPairStats_hasHistory30_formula_C7_witness :
    syncPairStats regExample none 0 ("kraken_BTC_USD") [(("1970-01-01" : String), 1)] =
        Except.ok (some ⟨JSNum.num 0, false, false⟩) ∧
    (⟨JSNum.num 0, false, false⟩ : SyncStatsOut).hasHistoryFor30LastDays =
        hasHistory30Amended [(("1970-01-01" : String), 1)] 0 none ∧
    MINIMAL_DAYS_TO_CONSIDER_EXCHANGE none = min (Option.getD none 20) 30 :=
  ⟨by with_unfolding_all rfl,
   syncPairStats_hasHistory30_formula_C7.1 regExample none 0 ("kraken_BTC_USD")
     [(("1970-01-01" : String), 1)] ⟨JSNum.num 0, false, false⟩ (by with_unfolding_all rfl),
   syncPairStats_hasHistory30_formula_C7.2 none⟩

set_option maxRecDepth 100000 in
set_option maxHeartbeats 4000000 in
theorem syncPairStats_latest_seed_C7_counterexample :
    (syncPairStatsWrite
        (syncPairStats regExample none statsCexNow ("kraken_BTC_USD") statsCexHisto)).map
        SyncStatsOut.hasHistoryFor30LastDays = some true ∧
    hasHistory30Claimed statsCexHisto statsCexNow none = false ∧
    alookup statsCexHisto latestKey = some 0 := by
  refine ⟨by with_unfolding_all rfl, by with_unfolding_all rfl, by with_unfolding_all rfl⟩
